import Mathlib

/-!
Verification development for the axn_chat_app repository.

The wire protocol codec is embedded from src/common/src/protocol.cpp and
common/protocol.h; the server session and registry layer is embedded from
src/server/src/server.cpp, src/server/src/client_manager.cpp and
server/client_session.h.  Bytes are natural numbers below 256, byte
buffers are lists of naturals, and the 32 bit wire integers are naturals
reduced modulo 2 ^ 32 = 4294967296 wherever the C++ uint32_t arithmetic
can wrap.  Strings are byte lists (their ASCII codes).
-/

/-- Wire constant SERVER_ID from common/protocol.h. -/
def SERVER_ID : Nat := 0

/-- Wire constant BROADCAST_ID from common/protocol.h. -/
def BROADCAST_ID : Nat := 0

/-- Fixed wire header size: 1 type byte plus three 32 bit integers = 13 bytes. -/
def HEADER_SIZE : Nat := 13

/-- MessageType wire constant C2S_JOIN = 0x01. -/
def C2S_JOIN : Nat := 1

/-- MessageType wire constant C2S_BROADCAST = 0x02. -/
def C2S_BROADCAST : Nat := 2

/-- MessageType wire constant C2S_PRIVATE = 0x03. -/
def C2S_PRIVATE : Nat := 3

/-- MessageType wire constant C2S_LEAVE = 0x04. -/
def C2S_LEAVE : Nat := 4

/-- MessageType wire constant C2S_USER_JOINED_LIST = 0x05. -/
def C2S_USER_JOINED_LIST : Nat := 5

/-- MessageType wire constant S2C_JOIN_SUCCESS = 0x10. -/
def S2C_JOIN_SUCCESS : Nat := 16

/-- MessageType wire constant S2C_JOIN_FAILURE = 0x11. -/
def S2C_JOIN_FAILURE : Nat := 17

/-- MessageType wire constant S2C_BROADCAST = 0x12. -/
def S2C_BROADCAST : Nat := 18

/-- MessageType wire constant S2C_PRIVATE = 0x13. -/
def S2C_PRIVATE : Nat := 19

/-- MessageType wire constant S2C_USER_JOINED = 0x14. -/
def S2C_USER_JOINED : Nat := 20

/-- MessageType wire constant S2C_USER_LEFT = 0x15. -/
def S2C_USER_LEFT : Nat := 21

/-- MessageType wire constant S2C_USER_JOINED_LIST = 0x16. -/
def S2C_USER_JOINED_LIST : Nat := 22

/-- MessageType wire constant S2C_SERVER_SHUTDOWN = 0x17. -/
def S2C_SERVER_SHUTDOWN : Nat := 23

/-- MessageType wire constant S2C_ERROR = 0xFF. -/
def S2C_ERROR : Nat := 255

/-- All MessageType enum constants defined in common/protocol.h, as a
membership test on the raw type byte. -/
def is_defined_message_type (t : Nat) : Bool :=
  decide (t = C2S_JOIN ∨ t = C2S_BROADCAST ∨ t = C2S_PRIVATE ∨ t = C2S_LEAVE ∨
    t = C2S_USER_JOINED_LIST ∨ t = S2C_JOIN_SUCCESS ∨ t = S2C_JOIN_FAILURE ∨
    t = S2C_BROADCAST ∨ t = S2C_PRIVATE ∨ t = S2C_USER_JOINED ∨ t = S2C_USER_LEFT ∨
    t = S2C_USER_JOINED_LIST ∨ t = S2C_SERVER_SHUTDOWN ∨ t = S2C_ERROR)

/-- MessageHeader from common/protocol.h.  The type field holds the raw
wire byte so that unrecognized type bytes are representable, exactly as
the C++ static_cast from uint8_t keeps them. -/
structure MessageHeader where
  type : Nat
  sender_id : Nat
  receiver_id : Nat
  payload_size : Nat
deriving DecidableEq, Repr

/-- Message from common/protocol.h: a header plus a payload byte string. -/
structure Message where
  header : MessageHeader
  payload : List Nat
deriving DecidableEq, Repr

/-- The four argument Message constructor of common/protocol.h, which
computes the payload_size field from the payload length. -/
def mkMessage (t sender receiver : Nat) (payload : List Nat) : Message :=
  ⟨⟨t, sender, receiver, payload.length⟩, payload⟩

/-- Big endian byte quadruple of a 32 bit integer, as produced by htonl
followed by memcpy in serialize_message. -/
def u32be (n : Nat) : List Nat :=
  [n / 16777216 % 256, n / 65536 % 256, n / 256 % 256, n % 256]

/-- Big endian 32 bit read at byte offset i, as done by memcpy followed by
ntohl in deserialize_message.  Out of range reads default to 0; the code
only reads inside the buffer thanks to its length guards. -/
def readU32 (b : List Nat) (i : Nat) : Nat :=
  ((b.getD i 0 * 256 + b.getD (i + 1) 0) * 256 + b.getD (i + 2) 0) * 256 + b.getD (i + 3) 0

/-- serialize_message from src/common/src/protocol.cpp: one type byte,
three big endian 32 bit integers, then payload_size bytes of payload.
The C++ memcpy copies exactly header.payload_size bytes out of the
payload buffer; when payload_size exceeds the payload length the read is
out of bounds in C++, modelled here by zero filler (the vector is value
initialized), and when it is smaller only a prefix is copied. -/
def serialize_message (msg : Message) : List Nat :=
  msg.header.type % 256
    :: (u32be msg.header.sender_id ++ u32be msg.header.receiver_id ++
        u32be msg.header.payload_size ++
        (msg.payload.take msg.header.payload_size ++
          List.replicate (msg.header.payload_size - msg.payload.length) 0))

/-- Payload size declared by a raw buffer header, read at offset 9
(= 1 type byte + two 32 bit ids), as peeked by deserialize_message. -/
def declared_payload_size (buffer : List Nat) : Nat := readU32 buffer 9

/-- deserialize_message from src/common/src/protocol.cpp: returns
(none, 0) when the buffer is shorter than the header or shorter than the
header plus the declared payload size, and otherwise the parsed message
together with the exact consumed byte count. -/
def deserialize_message (buffer : List Nat) : Option Message × Nat :=
  if buffer.length < HEADER_SIZE then (none, 0)
  else
    let payload_size := readU32 buffer 9
    if buffer.length < HEADER_SIZE + payload_size then (none, 0)
    else
      (some ⟨⟨buffer.getD 0 0, readU32 buffer 1, readU32 buffer 5, payload_size⟩,
        (buffer.drop HEADER_SIZE).take payload_size⟩, HEADER_SIZE + payload_size)

lemma readU32_u32be (n : Nat) (h : n < 4294967296) :
    readU32 (u32be n ++ l) 0 = n := by
  simp only [readU32, u32be, List.cons_append, List.nil_append, List.getD_cons_zero,
    List.getD_cons_succ]
  omega

lemma serialize_message_length (msg : Message) :
    (serialize_message msg).length = HEADER_SIZE + msg.header.payload_size := by
  simp only [serialize_message, HEADER_SIZE, u32be, List.length_cons, List.length_append,
    List.length_take, List.length_replicate, List.length_cons, List.length_nil]
  omega

lemma deserialize_cons13 (t a1 a2 a3 a4 b1 b2 b3 b4 c1 c2 c3 c4 : Nat) (rest : List Nat) :
    deserialize_message (t :: a1 :: a2 :: a3 :: a4 :: b1 :: b2 :: b3 :: b4 :: c1 :: c2 :: c3 :: c4 :: rest) =
      (if rest.length < ((c1 * 256 + c2) * 256 + c3) * 256 + c4 then (none, 0)
       else (some ⟨⟨t, ((a1 * 256 + a2) * 256 + a3) * 256 + a4,
                      ((b1 * 256 + b2) * 256 + b3) * 256 + b4,
                      ((c1 * 256 + c2) * 256 + c3) * 256 + c4⟩,
              rest.take (((c1 * 256 + c2) * 256 + c3) * 256 + c4)⟩,
             13 + (((c1 * 256 + c2) * 256 + c3) * 256 + c4))) := by
  simp only [deserialize_message, HEADER_SIZE, readU32]
  simp
  split_ifs with h1 h2 <;> first | rfl | omega

lemma serialize_eq_cons (t sid rid : Nat) (pl : List Nat) :
    serialize_message ⟨⟨t, sid, rid, pl.length⟩, pl⟩ =
      t % 256 :: sid / 16777216 % 256 :: sid / 65536 % 256 :: sid / 256 % 256 :: sid % 256 ::
      rid / 16777216 % 256 :: rid / 65536 % 256 :: rid / 256 % 256 :: rid % 256 ::
      pl.length / 16777216 % 256 :: pl.length / 65536 % 256 :: pl.length / 256 % 256 ::
      pl.length % 256 :: pl := by
  simp [serialize_message, u32be, List.take_length, Nat.sub_self]

lemma deserialize_serialize_append (m : Message) (extra : List Nat)
    (hps : m.header.payload_size = m.payload.length)
    (hty : m.header.type < 256) (hs : m.header.sender_id < 4294967296)
    (hr : m.header.receiver_id < 4294967296)
    (hp : m.header.payload_size < 4294967296) :
    deserialize_message (serialize_message m ++ extra) =
      (some m, HEADER_SIZE + m.header.payload_size) := by
  obtain ⟨⟨t, sid, rid, ps⟩, pl⟩ := m
  simp only at hps hty hs hr hp
  subst hps
  rw [serialize_eq_cons]
  simp only [List.cons_append]
  rw [deserialize_cons13]
  have h1 : ((pl.length / 16777216 % 256 * 256 + pl.length / 65536 % 256) * 256 +
      pl.length / 256 % 256) * 256 + pl.length % 256 = pl.length := by omega
  have h2 : ((sid / 16777216 % 256 * 256 + sid / 65536 % 256) * 256 +
      sid / 256 % 256) * 256 + sid % 256 = sid := by omega
  have h3 : ((rid / 16777216 % 256 * 256 + rid / 65536 % 256) * 256 +
      rid / 256 % 256) * 256 + rid % 256 = rid := by omega
  rw [h1, h2, h3, if_neg (by simp), Nat.mod_eq_of_lt hty, List.take_left]
  simp [HEADER_SIZE]

lemma deserialize_success (b : List Nat)
    (h : HEADER_SIZE + declared_payload_size b ≤ b.length) :
    deserialize_message b =
      (some ⟨⟨b.getD 0 0, readU32 b 1, readU32 b 5, declared_payload_size b⟩,
        (b.drop HEADER_SIZE).take (declared_payload_size b)⟩,
       HEADER_SIZE + declared_payload_size b) := by
  unfold deserialize_message
  unfold declared_payload_size at h
  rw [if_neg (by omega), if_neg (by omega)]
  rfl

/-- C1: for every message whose header payload_size equals its payload
length (together with the uint8 and uint32 representation bounds of the
C++ Message fields), deserialize_message applied to serialize_message
returns some message that is field-wise equal to the original, with a
consumed byte count equal to the length of the encoding, which is
exactly 13 + payload length. -/
theorem serialize_roundtrip (m : Message)
    (hps : m.header.payload_size = m.payload.length)
    (hty : m.header.type < 256) (hs : m.header.sender_id < 4294967296)
    (hr : m.header.receiver_id < 4294967296)
    (hp : m.header.payload_size < 4294967296) :
    deserialize_message (serialize_message m) = (some m, (serialize_message m).length) ∧
    (serialize_message m).length = 13 + m.payload.length := by
  have h := deserialize_serialize_append m [] hps hty hs hr hp
  rw [List.append_nil] at h
  have hlen : (serialize_message m).length = 13 + m.payload.length := by
    rw [serialize_message_length, hps]
    rfl
  refine ⟨?_, hlen⟩
  rw [h, hlen, hps]
  rfl

/-- Witness for serialize_roundtrip at a concrete message. -/
theorem serialize_roundtrip_witness :
    deserialize_message (serialize_message ⟨⟨1, 7, 9, 3⟩, [10, 20, 30]⟩) =
      (some ⟨⟨1, 7, 9, 3⟩, [10, 20, 30]⟩,
        (serialize_message ⟨⟨1, 7, 9, 3⟩, [10, 20, 30]⟩).length) ∧
    (serialize_message ⟨⟨1, 7, 9, 3⟩, [10, 20, 30]⟩).length = 13 + [10, 20, 30].length :=
  serialize_roundtrip ⟨⟨1, 7, 9, 3⟩, [10, 20, 30]⟩ (by decide) (by decide) (by decide)
    (by decide) (by decide)

/-- C2: deserialize_message returns (none, 0) on buffers shorter than 13
bytes or shorter than 13 plus the declared payload size; on long enough
buffers it succeeds and consumes exactly 13 plus the declared payload
size; decoding an encoded message with trailing bytes returns the
message and consumes only the encoding; and decoding an encoding with
its last byte dropped yields (none, 0) when the payload is non-empty. -/
theorem deserialize_framing (b : List Nat) (m : Message) (extra : List Nat)
    (hps : m.header.payload_size = m.payload.length)
    (hty : m.header.type < 256) (hs : m.header.sender_id < 4294967296)
    (hr : m.header.receiver_id < 4294967296)
    (hp : m.header.payload_size < 4294967296) :
    (b.length < 13 → deserialize_message b = (none, 0)) ∧
    (b.length < 13 + declared_payload_size b → deserialize_message b = (none, 0)) ∧
    (13 + declared_payload_size b ≤ b.length →
      (deserialize_message b).1.isSome = true ∧
      (deserialize_message b).2 = 13 + declared_payload_size b) ∧
    deserialize_message (serialize_message m ++ extra) =
      (some m, (serialize_message m).length) ∧
    (m.payload ≠ [] →
      deserialize_message (serialize_message m).dropLast = (none, 0)) := by
  refine ⟨?_, ?_, ?_, ?_, ?_⟩
  · intro h
    unfold deserialize_message
    rw [if_pos (by simpa [HEADER_SIZE] using h)]
  · intro h
    unfold deserialize_message
    unfold declared_payload_size at h
    by_cases h13 : b.length < HEADER_SIZE
    · rw [if_pos h13]
    · rw [if_neg h13, if_pos (by simpa [HEADER_SIZE] using h)]
  · intro h
    rw [deserialize_success b (by simpa [HEADER_SIZE] using h)]
    simp [HEADER_SIZE]
  · rw [deserialize_serialize_append m extra hps hty hs hr hp,
      serialize_message_length]
  · intro hpl
    obtain ⟨⟨t, sid, rid, ps⟩, pl⟩ := m
    simp only at hps hty hs hr hp
    subst hps
    rw [serialize_eq_cons]
    have hsplit : (t % 256 :: sid / 16777216 % 256 :: sid / 65536 % 256 :: sid / 256 % 256 ::
        sid % 256 :: rid / 16777216 % 256 :: rid / 65536 % 256 :: rid / 256 % 256 ::
        rid % 256 :: pl.length / 16777216 % 256 :: pl.length / 65536 % 256 ::
        pl.length / 256 % 256 :: pl.length % 256 :: pl) =
        [t % 256, sid / 16777216 % 256, sid / 65536 % 256, sid / 256 % 256,
         sid % 256, rid / 16777216 % 256, rid / 65536 % 256, rid / 256 % 256,
         rid % 256, pl.length / 16777216 % 256, pl.length / 65536 % 256,
         pl.length / 256 % 256, pl.length % 256] ++ pl := by
      simp
    simp only at hpl
    rw [hsplit, List.dropLast_append_of_ne_nil _ hpl]
    simp only [List.cons_append, List.nil_append]
    rw [deserialize_cons13]
    have hlt : pl.dropLast.length < ((pl.length / 16777216 % 256 * 256 +
        pl.length / 65536 % 256) * 256 + pl.length / 256 % 256) * 256 + pl.length % 256 := by
      have hlen : pl.dropLast.length = pl.length - 1 := by simp
      have hpos : 0 < pl.length := List.length_pos.mpr hpl
      omega
    rw [if_pos hlt]

/-- Witness for deserialize_framing at concrete inputs. -/
theorem deserialize_framing_witness :
    (([5, 6] : List Nat).length < 13 → deserialize_message [5, 6] = (none, 0)) ∧
    (([5, 6] : List Nat).length < 13 + declared_payload_size [5, 6] →
      deserialize_message [5, 6] = (none, 0)) ∧
    (13 + declared_payload_size [5, 6] ≤ ([5, 6] : List Nat).length →
      (deserialize_message [5, 6]).1.isSome = true ∧
      (deserialize_message [5, 6]).2 = 13 + declared_payload_size [5, 6]) ∧
    deserialize_message (serialize_message ⟨⟨2, 4, 0, 2⟩, [8, 9]⟩ ++ [7, 7, 7]) =
      (some ⟨⟨2, 4, 0, 2⟩, [8, 9]⟩, (serialize_message ⟨⟨2, 4, 0, 2⟩, [8, 9]⟩).length) ∧
    (([8, 9] : List Nat) ≠ [] →
      deserialize_message (serialize_message ⟨⟨2, 4, 0, 2⟩, [8, 9]⟩).dropLast = (none, 0)) :=
  deserialize_framing [5, 6] ⟨⟨2, 4, 0, 2⟩, [8, 9]⟩ [7, 7, 7] (by decide) (by decide)
    (by decide) (by decide) (by decide)

/-- Association list lookup keyed by Nat, modelling unordered_map find. -/
def alookup {α : Type} : List (Nat × α) → Nat → Option α
  | [], _ => none
  | (k, v) :: rest, k2 => if k = k2 then some v else alookup rest k2

/-- Association list insert or assign, modelling unordered_map bracket
assignment: replace the entry when the key is present, append otherwise. -/
def aupsert {α : Type} : List (Nat × α) → Nat → α → List (Nat × α)
  | [], k2, v2 => [(k2, v2)]
  | (k, v) :: rest, k2, v2 =>
    if k = k2 then (k2, v2) :: rest else (k, v) :: aupsert rest k2 v2

/-- Association list erase, modelling unordered_map erase of a key. -/
def aerase {α : Type} : List (Nat × α) → Nat → List (Nat × α)
  | [], _ => []
  | (k, v) :: rest, k2 => if k = k2 then rest else (k, v) :: aerase rest k2

lemma alookup_aupsert_self {α : Type} (l : List (Nat × α)) (k : Nat) (v : α) :
    alookup (aupsert l k v) k = some v := by
  induction l with
  | nil => simp [aupsert, alookup]
  | cons p rest ih =>
    obtain ⟨k1, v1⟩ := p
    by_cases h : k1 = k <;> simp [aupsert, alookup, h, ih]

lemma alookup_aupsert_ne {α : Type} (l : List (Nat × α)) (k k2 : Nat) (v : α)
    (h : k ≠ k2) : alookup (aupsert l k v) k2 = alookup l k2 := by
  induction l with
  | nil => simp [aupsert, alookup, h]
  | cons p rest ih =>
    obtain ⟨k1, v1⟩ := p
    by_cases h1 : k1 = k
    · subst h1
      simp [aupsert, alookup, h]
    · simp only [aupsert, if_neg h1]
      by_cases h2 : k1 = k2 <;> simp [alookup, h2, ih]

lemma alookup_aerase_ne {α : Type} (l : List (Nat × α)) (k k2 : Nat)
    (h : k ≠ k2) : alookup (aerase l k) k2 = alookup l k2 := by
  induction l with
  | nil => simp [aerase]
  | cons p rest ih =>
    obtain ⟨k1, v1⟩ := p
    by_cases h1 : k1 = k
    · subst h1
      simp [aerase, alookup, h]
    · simp only [aerase, if_neg h1]
      by_cases h2 : k1 = k2 <;> simp [alookup, h2, ih]

lemma alookup_eq_none {α : Type} (l : List (Nat × α)) (k : Nat)
    (h : ∀ p ∈ l, p.1 ≠ k) : alookup l k = none := by
  induction l with
  | nil => rfl
  | cons p rest ih =>
    obtain ⟨k1, v1⟩ := p
    have hk : k1 ≠ k := h (k1, v1) (by simp)
    simp only [alookup, if_neg hk]
    exact ih (fun q hq => h q (List.mem_cons_of_mem _ hq))

lemma alookup_aerase_self {α : Type} (l : List (Nat × α)) (k : Nat)
    (h : (l.map Prod.fst).Nodup) : alookup (aerase l k) k = none := by
  induction l with
  | nil => rfl
  | cons p rest ih =>
    obtain ⟨k1, v1⟩ := p
    simp only [List.map_cons, List.nodup_cons] at h
    by_cases h1 : k1 = k
    · subst h1
      simp only [aerase, if_pos rfl]
      refine alookup_eq_none rest k1 (fun q hq hqk => h.1 ?_)
      rw [← hqk]
      exact List.mem_map_of_mem Prod.fst hq
    · simp only [aerase, if_neg h1, alookup, if_neg h1]
      exact ih h.2

lemma alookup_mem {α : Type} {l : List (Nat × α)} {k : Nat} {v : α}
    (h : alookup l k = some v) : (k, v) ∈ l := by
  induction l with
  | nil => simp [alookup] at h
  | cons p rest ih =>
    obtain ⟨k1, v1⟩ := p
    simp only [alookup] at h
    by_cases h1 : k1 = k
    · subst h1
      simp at h
      subst h
      simp
    · simp only [if_neg h1] at h
      exact List.mem_cons_of_mem _ (ih h)

lemma mem_aupsert {α : Type} (l : List (Nat × α)) (k : Nat) (v : α) (p : Nat × α) :
    p ∈ aupsert l k v → p = (k, v) ∨ p ∈ l := by
  induction l with
  | nil =>
    intro h
    simpa [aupsert] using h
  | cons q rest ih =>
    obtain ⟨k1, v1⟩ := q
    intro h
    by_cases h1 : k1 = k
    · subst h1
      simp [aupsert] at h
      rcases h with h | h
      · exact Or.inl (by simp [h])
      · exact Or.inr (List.mem_cons_of_mem _ h)
    · simp only [aupsert, if_neg h1, List.mem_cons] at h
      rcases h with h | h
      · exact Or.inr (by simp [h])
      · rcases ih h with h2 | h2
        · exact Or.inl h2
        · exact Or.inr (List.mem_cons_of_mem _ h2)

lemma mem_aerase {α : Type} (l : List (Nat × α)) (k : Nat) (p : Nat × α) :
    p ∈ aerase l k → p ∈ l := by
  induction l with
  | nil =>
    intro h
    simp [aerase] at h
  | cons q rest ih =>
    obtain ⟨k1, v1⟩ := q
    intro h
    by_cases h1 : k1 = k
    · subst h1
      simp [aerase] at h
      exact List.mem_cons_of_mem _ h
    · simp only [aerase, if_neg h1, List.mem_cons] at h
      rcases h with h | h
      · simp [h]
      · exact List.mem_cons_of_mem _ (ih h)

/-- ClientSession from server/client_session.h: id, owned connection
handle (its file descriptor), username, authenticated flag.  The read
buffer is not modelled since framing is handled at the codec level. -/
structure ClientSession where
  id : Nat
  fd : Nat
  username : List Nat
  authenticated : Bool
deriving DecidableEq, Repr

/-- ClientManager from server/client_manager.h: the id counter (a
uint32_t starting at 1), the fd keyed owner map session_by_fd_, the id
keyed pointer map session_by_id_ (modelled as id to owning fd, since the
C++ map stores pointers into session_by_fd_), and the reserved username
set usernames_. -/
structure ClientManager where
  next_client_id : Nat
  sessions : List (Nat × ClientSession)
  session_ids : List (Nat × Nat)
  usernames : List (List Nat)
deriving DecidableEq, Repr

/-- ClientManager::add_client: assign the next id (uint32_t post
increment, so the counter wraps modulo 2 ^ 32), create the session,
index it by fd and by id, and return it. -/
def add_client (m : ClientManager) (fd : Nat) : ClientManager × ClientSession :=
  let id := m.next_client_id
  let sess : ClientSession := ⟨id, fd, [], false⟩
  (⟨(m.next_client_id + 1) % 4294967296,
    aupsert m.sessions fd sess,
    aupsert m.session_ids id fd,
    m.usernames⟩, sess)

/-- ClientManager::remove_client: look the session up by fd; when found,
erase the id index entry, the stored username from the reserved set, and
the fd entry; otherwise do nothing (a logged warning in the C++). -/
def remove_client (m : ClientManager) (fd : Nat) : ClientManager :=
  match alookup m.sessions fd with
  | none => m
  | some sess =>
    ⟨m.next_client_id,
     aerase m.sessions fd,
     aerase m.session_ids sess.id,
     m.usernames.filter (fun u => u ≠ sess.username)⟩

/-- ClientManager::get_client_by_id: resolve the id index to the stored
session pointer (here: to the owning fd entry). -/
def get_client_by_id (m : ClientManager) (id : Nat) : Option ClientSession :=
  match alookup m.session_ids id with
  | none => none
  | some fd => alookup m.sessions fd

/-- ClientManager::get_client_by_fd. -/
def get_client_by_fd (m : ClientManager) (fd : Nat) : Option ClientSession :=
  alookup m.sessions fd

/-- ClientManager::get_all_clients (draft copy in client_manager.cpp):
collect the sessions reachable from the id index. -/
def get_all_clients (m : ClientManager) : List ClientSession :=
  m.session_ids.filterMap (fun p => alookup m.sessions p.2)

/-- ClientManager::is_username_taken: membership in usernames_. -/
def is_username_taken (m : ClientManager) (username : List Nat) : Bool :=
  decide (username ∈ m.usernames)

/-- Modelled from the spec: ClientManager::add_username is called from
Server::process_join_message and from the unit tests, but its definition
is not under src/ (only the draft header is present, which lacks it).
Section 4.4 of the spec says the accepted username is stored and
reserved in the registry, so it is modelled as set insertion into
usernames_. -/
def add_username (m : ClientManager) (username : List Nat) : ClientManager :=
  ⟨m.next_client_id, m.sessions, m.session_ids,
   if username ∈ m.usernames then m.usernames else m.usernames ++ [username]⟩

/-- One outgoing socket write: the target file descriptor and the bytes
passed to send_data. -/
abbrev Send : Type := Nat × List Nat

/-- ClientManager::broadcast_message: serialize the message once, then
walk the fd map and send the bytes to every authenticated session whose
id differs from exclude_sender_id.  The fold threads the manager through
the loop exactly as the C++ loop body could touch it; the loop body only
writes to sockets. -/
def broadcast_message (m : ClientManager) (message : Message)
    (exclude_sender_id : Nat) : ClientManager × List Send :=
  let bytes := serialize_message message
  m.sessions.foldl
    (fun acc p =>
      if p.2.authenticated = true ∧ p.2.id ≠ exclude_sender_id then
        (acc.1, acc.2 ++ [(p.1, bytes)])
      else acc)
    (m, [])

/-- Server state: the registry plus the set of fds registered with the
epoll multiplexer.  The listener and port play no role in the claims. -/
structure ServerState where
  manager : ClientManager
  epoll_fds : List Nat
deriving DecidableEq, Repr

/-- The initial server state: the id counter starts at 1, all maps empty. -/
def initServerState : ServerState := ⟨⟨1, [], [], []⟩, []⟩

/-- EpollManager::add_fd, modelled as set insertion. -/
def epoll_add_fd (l : List Nat) (fd : Nat) : List Nat :=
  if fd ∈ l then l else l ++ [fd]

/-- EpollManager::remove_fd, modelled as set removal. -/
def epoll_remove_fd (l : List Nat) (fd : Nat) : List Nat :=
  l.filter (fun x => x ≠ fd)

/-- ASCII bytes of the string literal used in Server, reading
Welcome to the chat, followed by a space. -/
def welcome_text : List Nat :=
  [87, 101, 108, 99, 111, 109, 101, 32, 116, 111, 32, 116, 104, 101, 32,
   99, 104, 97, 116, 44, 32]

/-- ASCII bytes of the string literal reading Username already exists. -/
def username_exists_text : List Nat :=
  [85, 115, 101, 114, 110, 97, 109, 101, 32, 97, 108, 114, 101, 97, 100,
   121, 32, 101, 120, 105, 115, 116, 115]

/-- ASCII bytes of the string literal reading Receiver not found or not
connected, ending in a full stop. -/
def receiver_not_found_text : List Nat :=
  [82, 101, 99, 101, 105, 118, 101, 114, 32, 110, 111, 116, 32, 102, 111,
   117, 110, 100, 32, 111, 114, 32, 110, 111, 116, 32, 99, 111, 110, 110,
   101, 99, 116, 101, 100, 46]

/-- Fuel driven decimal digit expansion, mirroring std::to_string on the
session id in Server::process_user_joined_list.  The fuel argument n + 1
always suffices since a number has at most as many digits as its value. -/
def natDigitsAux : Nat → Nat → List Nat
  | 0, _ => []
  | fuel + 1, n =>
    if n < 10 then [48 + n] else natDigitsAux fuel (n / 10) ++ [48 + n % 10]

/-- ASCII decimal representation of a natural number. -/
def natDigits (n : Nat) : List Nat := natDigitsAux (n + 1) n

/-- Server::handle_client_disconnection: look the session up by fd; when
absent return with no effect.  When present and authenticated, broadcast
S2C_USER_LEFT (sender_id = the departing session id, payload = its
username) to the other authenticated sessions, then unregister the fd
from epoll and remove the session from the registry. -/
def handle_client_disconnection (s : ServerState) (fd : Nat) : ServerState × List Send :=
  match get_client_by_fd s.manager fd with
  | none => (s, [])
  | some sess =>
    let outs :=
      if sess.authenticated = true then
        (broadcast_message s.manager
          (mkMessage S2C_USER_LEFT sess.id BROADCAST_ID sess.username) sess.id).2
      else []
    (⟨remove_client s.manager fd, epoll_remove_fd s.epoll_fds fd⟩, outs)

/-- Server::process_join_message: only unauthenticated sessions are
processed.  A taken username draws S2C_JOIN_FAILURE followed by a forced
disconnect; a free username authenticates the session, stores and
reserves the username, replies S2C_JOIN_SUCCESS, and broadcasts
S2C_USER_JOINED to the other authenticated sessions. -/
def process_join_message (s : ServerState) (sess : ClientSession)
    (message : Message) : ServerState × List Send :=
  if sess.authenticated = true then (s, [])
  else
    let username := message.payload
    if is_username_taken s.manager username = true then
      let failure := mkMessage S2C_JOIN_FAILURE SERVER_ID sess.id username_exists_text
      let after := handle_client_disconnection s sess.fd
      (after.1, (sess.fd, serialize_message failure) :: after.2)
    else
      let sess2 : ClientSession := ⟨sess.id, sess.fd, username, true⟩
      let m1 : ClientManager :=
        ⟨s.manager.next_client_id, aupsert s.manager.sessions sess.fd sess2,
         s.manager.session_ids, s.manager.usernames⟩
      let m2 := add_username m1 username
      let success := mkMessage S2C_JOIN_SUCCESS SERVER_ID sess.id
        (welcome_text ++ username ++ [33])
      let notify := mkMessage S2C_USER_JOINED sess.id BROADCAST_ID username
      let bp := broadcast_message m2 notify sess.id
      (⟨bp.1, s.epoll_fds⟩, (sess.fd, serialize_message success) :: bp.2)

/-- Server::process_user_joined_list: build username:id pairs for every
other authenticated client, and when the list is non-empty reply with
the comma joined string; an empty list sends nothing.  The requester
authentication is not checked by the code. -/
def process_user_joined_list (s : ServerState) (sess : ClientSession) :
    ServerState × List Send :=
  let user_list := ((get_all_clients s.manager).filter
      (fun c => c.authenticated = true ∧ c.id ≠ sess.id)).map
    (fun c => c.username ++ [58] ++ natDigits c.id)
  if user_list.isEmpty = true then (s, [])
  else
    let payload := List.intercalate [44] user_list
    let reply := mkMessage S2C_USER_JOINED_LIST SERVER_ID sess.id payload
    (s, [(sess.fd, serialize_message reply)])

/-- Server::process_broadcast_message: only authenticated senders; the
payload is forwarded as S2C_BROADCAST with sender_id restamped to the
session id and receiver_id the broadcast sentinel, to every other
authenticated session. -/
def process_broadcast_message (s : ServerState) (sess : ClientSession)
    (message : Message) : ServerState × List Send :=
  if sess.authenticated = true then
    let outgoing := mkMessage S2C_BROADCAST sess.id BROADCAST_ID message.payload
    let bp := broadcast_message s.manager outgoing sess.id
    (⟨bp.1, s.epoll_fds⟩, bp.2)
  else (s, [])

/-- Server::process_private_message: look the receiver up by id.  When
found and the sender is authenticated, forward the payload as
S2C_PRIVATE with sender_id restamped, to that one recipient.  When not
found, reply S2C_ERROR to the sender (with no authentication check).
When found but the sender is unauthenticated, do nothing. -/
def process_private_message (s : ServerState) (sess : ClientSession)
    (message : Message) : ServerState × List Send :=
  match get_client_by_id s.manager message.header.receiver_id with
  | some receiver =>
    if sess.authenticated = true then
      let fwd := mkMessage S2C_PRIVATE sess.id message.header.receiver_id message.payload
      (s, [(receiver.fd, serialize_message fwd)])
    else (s, [])
  | none =>
    let err := mkMessage S2C_ERROR SERVER_ID sess.id receiver_not_found_text
    (s, [(sess.fd, serialize_message err)])

/-- Server::process_message: dispatch on the raw type byte; C2S_LEAVE
runs the disconnect path for the sender fd, and every unrecognized type
byte is logged and ignored. -/
def process_message (s : ServerState) (sess : ClientSession)
    (message : Message) : ServerState × List Send :=
  if message.header.type = C2S_JOIN then process_join_message s sess message
  else if message.header.type = C2S_USER_JOINED_LIST then process_user_joined_list s sess
  else if message.header.type = C2S_BROADCAST then process_broadcast_message s sess message
  else if message.header.type = C2S_PRIVATE then process_private_message s sess message
  else if message.header.type = C2S_LEAVE then handle_client_disconnection s sess.fd
  else (s, [])

/-- External events driving the dispatcher: a new accepted connection, a
complete decoded frame arriving on a connection, and a hangup or error
readiness event. -/
inductive Event : Type
  | accept (fd : Nat)
  | recv (fd : Nat) (message : Message)
  | hangup (fd : Nat)
deriving DecidableEq, Repr

/-- One iteration of the server loop for one event:
Server::handle_new_connection adds the client and registers the fd;
a decoded frame is dispatched through Server::process_message for the
session looked up by fd (unknown fds are ignored with a warning); a
hangup or error event runs the disconnect path. -/
def step (s : ServerState) (e : Event) : ServerState × List Send :=
  match e with
  | Event.accept fd =>
    let mp := add_client s.manager fd
    (⟨mp.1, epoll_add_fd s.epoll_fds fd⟩, [])
  | Event.recv fd message =>
    match get_client_by_fd s.manager fd with
    | none => (s, [])
    | some sess => process_message s sess message
  | Event.hangup fd => handle_client_disconnection s fd

/-- Run a list of events from a state, concatenating the outputs. -/
def run (s : ServerState) : List Event → ServerState × List Send
  | [] => (s, [])
  | e :: es =>
    let p := step s e
    let q := run p.1 es
    (q.1, p.2 ++ q.2)

/-- Number of accept events in an event list. -/
def countAccepts (es : List Event) : Nat :=
  es.countP (fun e => match e with | Event.accept _ => true | _ => false)

/-- The session ids handed out along a run: at each accept event the
current value of the id counter is the id assigned by add_client. -/
def assignedIds (s : ServerState) : List Event → List Nat
  | [] => []
  | e :: es =>
    (match e with
     | Event.accept _ => [s.manager.next_client_id]
     | _ => []) ++ assignedIds (step s e).1 es

/-- Repeated add_client calls on one manager, all with the same fd, used
to drive the id counter; only the counter matters for id assignment. -/
def addClients : Nat → ClientManager → ClientManager
  | 0, m => m
  | n + 1, m => addClients n (add_client m 0).1

/-- Sessions selected by the broadcast loop: authenticated and not the
excluded sender id. -/
def broadcast_recipients (l : List (Nat × ClientSession)) (ex : Nat) :
    List (Nat × ClientSession) :=
  l.filter (fun p => decide (p.2.authenticated = true ∧ p.2.id ≠ ex))

lemma broadcast_foldl (bytes : List Nat) (ex : Nat) (l : List (Nat × ClientSession)) :
    ∀ (m : ClientManager) (acc : List Send),
      l.foldl
        (fun acc2 p =>
          if p.2.authenticated = true ∧ p.2.id ≠ ex then
            (acc2.1, acc2.2 ++ [(p.1, bytes)])
          else acc2)
        (m, acc) =
      (m, acc ++ (broadcast_recipients l ex).map (fun p => (p.1, bytes))) := by
  induction l with
  | nil =>
    intro m acc
    simp [broadcast_recipients]
  | cons p rest ih =>
    intro m acc
    by_cases hc : p.2.authenticated = true ∧ p.2.id ≠ ex
    · simp only [List.foldl_cons, if_pos hc, broadcast_recipients, List.filter_cons,
        decide_eq_true hc, List.map_cons]
      rw [ih]
      simp [broadcast_recipients]
    · simp only [List.foldl_cons, if_neg hc, broadcast_recipients, List.filter_cons]
      rw [decide_eq_false hc]
      rw [ih]
      simp [broadcast_recipients]

lemma broadcast_message_eq (m : ClientManager) (message : Message) (ex : Nat) :
    broadcast_message m message ex =
      (m, (broadcast_recipients m.sessions ex).map
        (fun p => (p.1, serialize_message message))) := by
  unfold broadcast_message
  rw [broadcast_foldl]
  simp

lemma mem_broadcast_iff (m : ClientManager) (message : Message) (ex fd : Nat)
    (bytes : List Nat) :
    (fd, bytes) ∈ (broadcast_message m message ex).2 ↔
      bytes = serialize_message message ∧
      ∃ c, (fd, c) ∈ m.sessions ∧ c.authenticated = true ∧ c.id ≠ ex := by
  rw [broadcast_message_eq]
  simp only [List.mem_map, broadcast_recipients, List.mem_filter, Prod.mk.injEq,
    decide_eq_true_eq]
  constructor
  · rintro ⟨p, ⟨hmem, hcond⟩, hfd, hbytes⟩
    obtain ⟨k, c⟩ := p
    simp only at hfd hbytes hcond
    subst hfd
    exact ⟨hbytes.symm, c, hmem, hcond⟩
  · rintro ⟨hbytes, c, hmem, hcond⟩
    exact ⟨(fd, c), ⟨hmem, hcond⟩, rfl, hbytes.symm⟩

lemma mem_alookup_of_nodup {α : Type} {l : List (Nat × α)} {k : Nat} {v : α}
    (hnodup : (l.map Prod.fst).Nodup) (h : (k, v) ∈ l) : alookup l k = some v := by
  induction l with
  | nil => simp at h
  | cons p rest ih =>
    obtain ⟨k1, v1⟩ := p
    simp only [List.map_cons, List.nodup_cons] at hnodup
    rcases List.mem_cons.mp h with h1 | h1
    · cases h1
      simp [alookup]
    · by_cases hk : k1 = k
      · exfalso
        apply hnodup.1
        rw [hk]
        exact List.mem_map_of_mem Prod.fst h1
      · simp only [alookup, if_neg hk]
        exact ih hnodup.2 h1

/-- C10: broadcast_message leaves every registry component unchanged:
the id counter, the fd map (hence every stored authenticated flag and
username), the id index, and the reserved username set; its outputs are
only socket writes of the encoded message, each addressed to the fd of a
live session. -/
theorem broadcast_no_registry_mutation (m : ClientManager) (message : Message) (ex : Nat) :
    (broadcast_message m message ex).1.next_client_id = m.next_client_id ∧
    (broadcast_message m message ex).1.sessions = m.sessions ∧
    (broadcast_message m message ex).1.session_ids = m.session_ids ∧
    (broadcast_message m message ex).1.usernames = m.usernames ∧
    ∀ o ∈ (broadcast_message m message ex).2,
      o.2 = serialize_message message ∧ ∃ c, (o.1, c) ∈ m.sessions := by
  rw [broadcast_message_eq]
  refine ⟨rfl, rfl, rfl, rfl, ?_⟩
  intro o ho
  simp only [List.mem_map, broadcast_recipients, List.mem_filter] at ho
  obtain ⟨p, ⟨hmem, hcond⟩, ho⟩ := ho
  subst ho
  exact ⟨rfl, p.2, hmem⟩

/-- Shared sample fixture: an authenticated session with id 1 on fd 10. -/
def sampleSessionA : ClientSession := ⟨1, 10, [97], true⟩

/-- Shared sample fixture: an authenticated session with id 2 on fd 20. -/
def sampleSessionB : ClientSession := ⟨2, 20, [98], true⟩

/-- Shared sample fixture: an unauthenticated session with id 3 on fd 30. -/
def sampleSessionC : ClientSession := ⟨3, 30, [], false⟩

/-- Shared sample fixture: a registry holding the three sample sessions. -/
def sampleManager : ClientManager :=
  ⟨4, [(10, sampleSessionA), (20, sampleSessionB), (30, sampleSessionC)],
   [(1, 10), (2, 20), (3, 30)], [[97], [98]]⟩

/-- Shared sample fixture: a server state over the sample registry. -/
def sampleState : ServerState := ⟨sampleManager, [10, 20, 30]⟩

/-- C6: broadcast_message sends the encoded bytes exactly to the live
sessions that are authenticated and whose id differs from the excluded
id; consequently a Broadcast processed for an authenticated session
reaches every other authenticated session, never the sender itself, and
never an unauthenticated session. -/
theorem broadcast_exclusion
    (m : ClientManager) (message : Message) (ex fd : Nat) (bytes : List Nat)
    (s : ServerState) (sess : ClientSession) (msg2 : Message)
    (hnodup : (s.manager.sessions.map Prod.fst).Nodup)
    (hsess : alookup s.manager.sessions sess.fd = some sess)
    (hauth : sess.authenticated = true) :
    ((fd, bytes) ∈ (broadcast_message m message ex).2 ↔
      bytes = serialize_message message ∧
      ∃ c, (fd, c) ∈ m.sessions ∧ c.authenticated = true ∧ c.id ≠ ex) ∧
    (∀ bytes2, (sess.fd, bytes2) ∉ (process_broadcast_message s sess msg2).2) ∧
    (∀ fd2 c bytes2, (fd2, c) ∈ s.manager.sessions → c.authenticated = false →
      (fd2, bytes2) ∉ (process_broadcast_message s sess msg2).2) ∧
    (∀ fd2 c, (fd2, c) ∈ s.manager.sessions → c.authenticated = true → c.id ≠ sess.id →
      (fd2, serialize_message (mkMessage S2C_BROADCAST sess.id BROADCAST_ID msg2.payload))
        ∈ (process_broadcast_message s sess msg2).2) := by
  have houts : (process_broadcast_message s sess msg2).2 =
      (broadcast_message s.manager
        (mkMessage S2C_BROADCAST sess.id BROADCAST_ID msg2.payload) sess.id).2 := by
    simp [process_broadcast_message, hauth]
  refine ⟨mem_broadcast_iff m message ex fd bytes, ?_, ?_, ?_⟩
  · intro bytes2 hmem
    rw [houts, mem_broadcast_iff] at hmem
    obtain ⟨-, c, hcmem, hcauth, hcid⟩ := hmem
    have := mem_alookup_of_nodup hnodup hcmem
    rw [hsess] at this
    cases this
    exact hcid rfl
  · intro fd2 c bytes2 hcmem hcauth hmem
    rw [houts, mem_broadcast_iff] at hmem
    obtain ⟨-, c2, hc2mem, hc2auth, -⟩ := hmem
    have h1 := mem_alookup_of_nodup hnodup hcmem
    have h2 := mem_alookup_of_nodup hnodup hc2mem
    rw [h1] at h2
    cases h2
    rw [hcauth] at hc2auth
    exact Bool.false_ne_true hc2auth
  · intro fd2 c hcmem hcauth hcid
    rw [houts, mem_broadcast_iff]
    exact ⟨rfl, c, hcmem, hcauth, hcid⟩

/-- Witness for broadcast_exclusion at the sample fixture. -/
theorem broadcast_exclusion_witness :
    (((20 : Nat), serialize_message (mkMessage C2S_BROADCAST 9 9 [7])) ∈
        (broadcast_message sampleManager (mkMessage C2S_BROADCAST 9 9 [7]) 1).2 ↔
      serialize_message (mkMessage C2S_BROADCAST 9 9 [7]) =
          serialize_message (mkMessage C2S_BROADCAST 9 9 [7]) ∧
      ∃ c, ((20 : Nat), c) ∈ sampleManager.sessions ∧
        c.authenticated = true ∧ c.id ≠ 1) ∧
    (∀ bytes2, (sampleSessionA.fd, bytes2) ∉
      (process_broadcast_message sampleState sampleSessionA
        (mkMessage C2S_BROADCAST 0 0 [5])).2) ∧
    (∀ fd2 c bytes2, (fd2, c) ∈ sampleState.manager.sessions → c.authenticated = false →
      (fd2, bytes2) ∉ (process_broadcast_message sampleState sampleSessionA
        (mkMessage C2S_BROADCAST 0 0 [5])).2) ∧
    (∀ fd2 c, (fd2, c) ∈ sampleState.manager.sessions → c.authenticated = true →
      c.id ≠ sampleSessionA.id →
      (fd2, serialize_message (mkMessage S2C_BROADCAST sampleSessionA.id BROADCAST_ID
        (mkMessage C2S_BROADCAST 0 0 [5]).payload))
        ∈ (process_broadcast_message sampleState sampleSessionA
          (mkMessage C2S_BROADCAST 0 0 [5])).2) :=
  broadcast_exclusion sampleManager (mkMessage C2S_BROADCAST 9 9 [7]) 1 20
    (serialize_message (mkMessage C2S_BROADCAST 9 9 [7])) sampleState sampleSessionA
    (mkMessage C2S_BROADCAST 0 0 [5]) (by decide) (by decide) (by decide)

/-- C5: a Private whose receiver id is not registered in the id index
draws exactly one S2C_ERROR reply to the sender and nothing to anyone
else; receiver id 0 behaves the same whenever all live ids are at least
1; and a found receiver with an authenticated sender gets exactly one
forwarded S2C_PRIVATE with the sender_id restamped to the session id. -/
theorem private_delivery (s : ServerState) (sess : ClientSession) (message : Message) :
    (alookup s.manager.session_ids message.header.receiver_id = none →
      process_private_message s sess message =
        (s, [(sess.fd, serialize_message
          (mkMessage S2C_ERROR SERVER_ID sess.id receiver_not_found_text))])) ∧
    ((∀ p ∈ s.manager.session_ids, 1 ≤ p.1) → message.header.receiver_id = 0 →
      process_private_message s sess message =
        (s, [(sess.fd, serialize_message
          (mkMessage S2C_ERROR SERVER_ID sess.id receiver_not_found_text))])) ∧
    (∀ receiver, get_client_by_id s.manager message.header.receiver_id = some receiver →
      sess.authenticated = true →
      process_private_message s sess message =
        (s, [(receiver.fd, serialize_message
          (mkMessage S2C_PRIVATE sess.id message.header.receiver_id message.payload))])) := by
  refine ⟨?_, ?_, ?_⟩
  · intro hnone
    simp [process_private_message, get_client_by_id, hnone]
  · intro hpos hzero
    have hnone : alookup s.manager.session_ids message.header.receiver_id = none := by
      apply alookup_eq_none
      intro p hp
      have := hpos p hp
      omega
    simp [process_private_message, get_client_by_id, hnone]
  · intro receiver hsome hauth
    simp [process_private_message, hsome, hauth]

/-- Witness for private_delivery: an unknown receiver id, the receiver
id 0, and a successful forward, at the sample fixture. -/
theorem private_delivery_witness :
    process_private_message sampleState sampleSessionA ⟨⟨3, 0, 7, 1⟩, [9]⟩ =
      (sampleState, [(sampleSessionA.fd, serialize_message
        (mkMessage S2C_ERROR SERVER_ID sampleSessionA.id receiver_not_found_text))]) ∧
    process_private_message sampleState sampleSessionA ⟨⟨3, 0, 0, 1⟩, [9]⟩ =
      (sampleState, [(sampleSessionA.fd, serialize_message
        (mkMessage S2C_ERROR SERVER_ID sampleSessionA.id receiver_not_found_text))]) ∧
    process_private_message sampleState sampleSessionA ⟨⟨3, 0, 2, 1⟩, [9]⟩ =
      (sampleState, [(sampleSessionB.fd, serialize_message
        (mkMessage S2C_PRIVATE sampleSessionA.id 2 [9]))]) :=
  ⟨(private_delivery sampleState sampleSessionA ⟨⟨3, 0, 7, 1⟩, [9]⟩).1 (by decide),
   (private_delivery sampleState sampleSessionA ⟨⟨3, 0, 0, 1⟩, [9]⟩).2.1
     (by decide) (by decide),
   (private_delivery sampleState sampleSessionA ⟨⟨3, 0, 2, 1⟩, [9]⟩).2.2 sampleSessionB
     (by decide) (by decide)⟩

/-- C9: a complete frame whose type byte is none of the defined enum
constants still decodes structurally with the exact consumed count, and
the dispatcher ignores such a message: no reply is sent and no session
or registry state changes. -/
theorem unknown_type_ignored (b : List Nat) (s : ServerState) (sess : ClientSession)
    (msg : Message)
    (hlen : 13 + declared_payload_size b ≤ b.length)
    (_hunk : is_defined_message_type (b.getD 0 0) = false)
    (hmsg : is_defined_message_type msg.header.type = false) :
    (deserialize_message b).1 = some ⟨⟨b.getD 0 0, readU32 b 1, readU32 b 5,
        declared_payload_size b⟩, (b.drop 13).take (declared_payload_size b)⟩ ∧
    (deserialize_message b).2 = 13 + declared_payload_size b ∧
    process_message s sess msg = (s, []) := by
  have hd := deserialize_success b (by simpa [HEADER_SIZE] using hlen)
  refine ⟨?_, ?_, ?_⟩
  · rw [hd]
    rfl
  · rw [hd]
    rfl
  · simp only [is_defined_message_type, decide_eq_false_iff_not] at hmsg
    push_neg at hmsg
    obtain ⟨h1, h2, h3, h4, h5, -⟩ := hmsg
    simp [process_message, h1, h2, h3, h4, h5]

/-- Witness for unknown_type_ignored: a complete frame with type byte 6. -/
theorem unknown_type_ignored_witness :
    (deserialize_message [6, 0, 0, 0, 0, 0, 0, 0, 0, 0, 0, 0, 1, 42]).1 =
      some ⟨⟨([6, 0, 0, 0, 0, 0, 0, 0, 0, 0, 0, 0, 1, 42] : List Nat).getD 0 0,
        readU32 [6, 0, 0, 0, 0, 0, 0, 0, 0, 0, 0, 0, 1, 42] 1,
        readU32 [6, 0, 0, 0, 0, 0, 0, 0, 0, 0, 0, 0, 1, 42] 5,
        declared_payload_size [6, 0, 0, 0, 0, 0, 0, 0, 0, 0, 0, 0, 1, 42]⟩,
        (([6, 0, 0, 0, 0, 0, 0, 0, 0, 0, 0, 0, 1, 42] : List Nat).drop 13).take
          (declared_payload_size [6, 0, 0, 0, 0, 0, 0, 0, 0, 0, 0, 0, 1, 42])⟩ ∧
    (deserialize_message [6, 0, 0, 0, 0, 0, 0, 0, 0, 0, 0, 0, 1, 42]).2 =
      13 + declared_payload_size [6, 0, 0, 0, 0, 0, 0, 0, 0, 0, 0, 0, 1, 42] ∧
    process_message sampleState sampleSessionA ⟨⟨6, 0, 0, 1⟩, [42]⟩ =
      (sampleState, []) :=
  unknown_type_ignored [6, 0, 0, 0, 0, 0, 0, 0, 0, 0, 0, 0, 1, 42] sampleState
    sampleSessionA ⟨⟨6, 0, 0, 1⟩, [42]⟩ (by decide) (by decide) (by decide)

/-- C7: the disconnect path is idempotent (a second run on an already
removed handle is a no-op found via a failed lookup); on a live
authenticated session it broadcasts S2C_USER_LEFT with sender_id the
departing session id and payload its username to exactly the other
authenticated sessions and not to the departing fd, then removes the
session, after which the fd lookup, the id lookup, and the username
reservation all report not found, and the fd is gone from the
multiplexer set. -/
theorem disconnect_path (s : ServerState) (fd : Nat) (sess : ClientSession)
    (hsess : get_client_by_fd s.manager fd = some sess)
    (hauth : sess.authenticated = true)
    (hnodup : (s.manager.sessions.map Prod.fst).Nodup)
    (hnodupid : (s.manager.session_ids.map Prod.fst).Nodup) :
    (∀ s2 fd2, get_client_by_fd s2.manager fd2 = none →
      handle_client_disconnection s2 fd2 = (s2, [])) ∧
    handle_client_disconnection (handle_client_disconnection s fd).1 fd =
      ((handle_client_disconnection s fd).1, []) ∧
    (∀ fd2 bytes, (fd2, bytes) ∈ (handle_client_disconnection s fd).2 ↔
      bytes = serialize_message (mkMessage S2C_USER_LEFT sess.id BROADCAST_ID sess.username) ∧
      ∃ c, (fd2, c) ∈ s.manager.sessions ∧ c.authenticated = true ∧ c.id ≠ sess.id) ∧
    (∀ bytes, (fd, bytes) ∉ (handle_client_disconnection s fd).2) ∧
    get_client_by_fd (handle_client_disconnection s fd).1.manager fd = none ∧
    get_client_by_id (handle_client_disconnection s fd).1.manager sess.id = none ∧
    is_username_taken (handle_client_disconnection s fd).1.manager sess.username = false ∧
    fd ∉ (handle_client_disconnection s fd).1.epoll_fds := by
  have hs2 : alookup s.manager.sessions fd = some sess := hsess
  have hafter : handle_client_disconnection s fd =
      (⟨⟨s.manager.next_client_id, aerase s.manager.sessions fd,
          aerase s.manager.session_ids sess.id,
          s.manager.usernames.filter (fun u => u ≠ sess.username)⟩,
        epoll_remove_fd s.epoll_fds fd⟩,
       (broadcast_message s.manager
         (mkMessage S2C_USER_LEFT sess.id BROADCAST_ID sess.username) sess.id).2) := by
    unfold handle_client_disconnection
    rw [hsess]
    simp [hauth, remove_client, hs2]
  have hnoop : ∀ s2 fd2, get_client_by_fd s2.manager fd2 = none →
      handle_client_disconnection s2 fd2 = (s2, []) := by
    intro s2 fd2 hnone
    unfold handle_client_disconnection
    rw [hnone]
  have hgone : get_client_by_fd (handle_client_disconnection s fd).1.manager fd = none := by
    rw [hafter]
    exact alookup_aerase_self s.manager.sessions fd hnodup
  refine ⟨hnoop, hnoop _ fd hgone, ?_, ?_, hgone, ?_, ?_, ?_⟩
  · intro fd2 bytes
    rw [hafter]
    exact mem_broadcast_iff s.manager _ sess.id fd2 bytes
  · intro bytes hmem
    rw [hafter, mem_broadcast_iff] at hmem
    obtain ⟨-, c, hcmem, -, hcid⟩ := hmem
    have := mem_alookup_of_nodup hnodup hcmem
    rw [hs2] at this
    cases this
    exact hcid rfl
  · rw [hafter]
    unfold get_client_by_id
    rw [alookup_aerase_self s.manager.session_ids sess.id hnodupid]
  · rw [hafter]
    simp [is_username_taken]
  · rw [hafter]
    simp [epoll_remove_fd]

/-- Witness for disconnect_path: removing the authenticated sample
session on fd 10. -/
theorem disconnect_path_witness :
    (∀ s2 fd2, get_client_by_fd s2.manager fd2 = none →
      handle_client_disconnection s2 fd2 = (s2, [])) ∧
    handle_client_disconnection (handle_client_disconnection sampleState 10).1 10 =
      ((handle_client_disconnection sampleState 10).1, []) ∧
    (∀ fd2 bytes, (fd2, bytes) ∈ (handle_client_disconnection sampleState 10).2 ↔
      bytes = serialize_message (mkMessage S2C_USER_LEFT sampleSessionA.id BROADCAST_ID
        sampleSessionA.username) ∧
      ∃ c, (fd2, c) ∈ sampleState.manager.sessions ∧ c.authenticated = true ∧
        c.id ≠ sampleSessionA.id) ∧
    (∀ bytes, ((10 : Nat), bytes) ∉ (handle_client_disconnection sampleState 10).2) ∧
    get_client_by_fd (handle_client_disconnection sampleState 10).1.manager 10 = none ∧
    get_client_by_id (handle_client_disconnection sampleState 10).1.manager
      sampleSessionA.id = none ∧
    is_username_taken (handle_client_disconnection sampleState 10).1.manager
      sampleSessionA.username = false ∧
    (10 : Nat) ∉ (handle_client_disconnection sampleState 10).1.epoll_fds :=
  disconnect_path sampleState 10 sampleSessionA (by decide) (by decide) (by decide)
    (by decide)

/-- C4 counterexample: after bob joins on fd 2, the still unauthenticated
session on fd 1 sends a UserJoinedList request and the server answers it
with an S2C_USER_JOINED_LIST reply to fd 1 (one send, type byte 0x16),
so bytes are sent on behalf of an unauthenticated session. -/
theorem unauthenticated_list_reply_counterexample :
    ((get_client_by_fd (run initServerState
        [Event.accept 1, Event.accept 2,
         Event.recv 2 ⟨⟨1, 0, 0, 3⟩, [98, 111, 98]⟩]).1.manager 1).map
      (fun c => c.authenticated)) = some false ∧
    (run initServerState
        [Event.accept 1, Event.accept 2,
         Event.recv 2 ⟨⟨1, 0, 0, 3⟩, [98, 111, 98]⟩,
         Event.recv 1 ⟨⟨5, 0, 0, 0⟩, []⟩]).2.countP
      (fun o => o.1 == 1 && o.2.headD 0 == S2C_USER_JOINED_LIST) = 1 :=
  ⟨by decide, by decide⟩

/-- C4 amended: an unauthenticated session triggers no broadcast and no
private forwarding, and a Join from an authenticated session is a
no-op; however the user list request is answered regardless of
authentication: the reply goes only to the requester and is sent
exactly when some other authenticated session exists. -/
theorem dispatch_gating (s : ServerState) (sess : ClientSession) (msg : Message) :
    (sess.authenticated = false → process_broadcast_message s sess msg = (s, [])) ∧
    (sess.authenticated = false →
      ∀ receiver, get_client_by_id s.manager msg.header.receiver_id = some receiver →
        process_private_message s sess msg = (s, [])) ∧
    (sess.authenticated = true → process_join_message s sess msg = (s, [])) ∧
    ((process_user_joined_list s sess).1 = s ∧
      ∀ o ∈ (process_user_joined_list s sess).2, o.1 = sess.fd) ∧
    ((process_user_joined_list s sess).2 ≠ [] ↔
      ∃ c ∈ get_all_clients s.manager, c.authenticated = true ∧ c.id ≠ sess.id) := by
  refine ⟨?_, ?_, ?_, ⟨?_, ?_⟩, ?_⟩
  · intro hunauth
    simp [process_broadcast_message, hunauth]
  · intro hunauth receiver hrecv
    simp [process_private_message, hrecv, hunauth]
  · intro hauth
    simp [process_join_message, hauth]
  · simp only [process_user_joined_list]
    split <;> rfl
  · simp only [process_user_joined_list]
    split <;> simp
  · simp only [process_user_joined_list]
    split
    · next hempty =>
      simp only [List.isEmpty_iff, List.map_eq_nil_iff, List.filter_eq_nil_iff] at hempty
      simp only [ne_eq, not_true_eq_false, false_iff]
      push_neg
      intro c hc hcauth
      have := hempty c hc
      simp only [decide_eq_true_eq, not_and] at this
      exact not_not.mp (this hcauth)
    · next hempty =>
      simp only [List.isEmpty_iff, List.map_eq_nil_iff, List.filter_eq_nil_iff] at hempty
      push_neg at hempty
      obtain ⟨c, hc, hcond⟩ := hempty
      simp only [decide_eq_true_eq, Decidable.not_not] at hcond
      simp only [ne_eq, List.cons_ne_nil, not_false_eq_true, true_iff]
      exact ⟨c, hc, by tauto⟩

/-- Witness for dispatch_gating at the sample fixture. -/
theorem dispatch_gating_witness :
    process_broadcast_message sampleState sampleSessionC ⟨⟨2, 0, 0, 1⟩, [7]⟩ =
      (sampleState, []) ∧
    process_private_message sampleState sampleSessionC ⟨⟨3, 0, 2, 1⟩, [7]⟩ =
      (sampleState, []) ∧
    process_join_message sampleState sampleSessionA ⟨⟨1, 0, 0, 1⟩, [99]⟩ =
      (sampleState, []) ∧
    ((process_user_joined_list sampleState sampleSessionC).1 = sampleState ∧
      ∀ o ∈ (process_user_joined_list sampleState sampleSessionC).2,
        o.1 = sampleSessionC.fd) ∧
    ((process_user_joined_list sampleState sampleSessionC).2 ≠ [] ↔
      ∃ c ∈ get_all_clients sampleState.manager, c.authenticated = true ∧
        c.id ≠ sampleSessionC.id) :=
  ⟨(dispatch_gating sampleState sampleSessionC ⟨⟨2, 0, 0, 1⟩, [7]⟩).1 (by decide),
   (dispatch_gating sampleState sampleSessionC ⟨⟨3, 0, 2, 1⟩, [7]⟩).2.1 (by decide)
     sampleSessionB (by decide),
   (dispatch_gating sampleState sampleSessionA ⟨⟨1, 0, 0, 1⟩, [99]⟩).2.2.1 (by decide),
   (dispatch_gating sampleState sampleSessionC ⟨⟨2, 0, 0, 1⟩, [7]⟩).2.2.2.1,
   (dispatch_gating sampleState sampleSessionC ⟨⟨2, 0, 0, 1⟩, [7]⟩).2.2.2.2⟩

lemma disconnection_manager (s : ServerState) (fd : Nat) :
    (handle_client_disconnection s fd).1.manager.next_client_id =
      s.manager.next_client_id ∧
    ∀ p ∈ (handle_client_disconnection s fd).1.manager.sessions,
      p ∈ s.manager.sessions := by
  unfold handle_client_disconnection
  cases hl : get_client_by_fd s.manager fd with
  | none => simp
  | some sess =>
    have hl2 : alookup s.manager.sessions fd = some sess := hl
    simp only [remove_client, hl2]
    exact ⟨by simp, fun p hp => mem_aerase _ _ _ hp⟩

lemma pujl_fst (s : ServerState) (sess : ClientSession) :
    (process_user_joined_list s sess).1 = s := by
  simp only [process_user_joined_list]
  split <;> rfl

lemma ppm_fst (s : ServerState) (sess : ClientSession) (msg : Message) :
    (process_private_message s sess msg).1 = s := by
  unfold process_private_message
  cases hrecv : get_client_by_id s.manager msg.header.receiver_id with
  | none => rfl
  | some receiver =>
    simp only
    split <;> rfl

lemma pbm_fst (s : ServerState) (sess : ClientSession) (msg : Message) :
    (process_broadcast_message s sess msg).1 = s := by
  simp only [process_broadcast_message]
  split
  · rw [broadcast_message_eq]
  · rfl

lemma process_message_manager (s : ServerState) (fd : Nat) (sess : ClientSession)
    (hl : alookup s.manager.sessions fd = some sess) (msg : Message) :
    (process_message s sess msg).1.manager.next_client_id = s.manager.next_client_id ∧
    ∀ p ∈ (process_message s sess msg).1.manager.sessions,
      ∃ q ∈ s.manager.sessions, p.2.id = q.2.id := by
  have hmem : (fd, sess) ∈ s.manager.sessions := alookup_mem hl
  have hdisc : ∀ fd2, (handle_client_disconnection s fd2).1.manager.next_client_id =
        s.manager.next_client_id ∧
      ∀ p ∈ (handle_client_disconnection s fd2).1.manager.sessions,
        ∃ q ∈ s.manager.sessions, p.2.id = q.2.id := by
    intro fd2
    have h := disconnection_manager s fd2
    exact ⟨h.1, fun p hp => ⟨p, h.2 p hp, rfl⟩⟩
  unfold process_message
  by_cases h1 : msg.header.type = C2S_JOIN
  · rw [if_pos h1]
    unfold process_join_message
    by_cases hauth : sess.authenticated = true
    · rw [if_pos hauth]
      exact ⟨rfl, fun p hp => ⟨p, hp, rfl⟩⟩
    · rw [if_neg hauth]
      dsimp only
      by_cases htaken : is_username_taken s.manager msg.payload = true
      · rw [if_pos htaken]
        exact ⟨(hdisc sess.fd).1, fun p hp => (hdisc sess.fd).2 p hp⟩
      · rw [if_neg htaken]
        rw [broadcast_message_eq]
        refine ⟨rfl, fun p hp => ?_⟩
        rcases mem_aupsert _ _ _ _ hp with h2 | h2
        · exact ⟨(fd, sess), hmem, by rw [h2]⟩
        · exact ⟨p, h2, rfl⟩
  · rw [if_neg h1]
    by_cases h2 : msg.header.type = C2S_USER_JOINED_LIST
    · rw [if_pos h2, pujl_fst]
      exact ⟨rfl, fun p hp => ⟨p, hp, rfl⟩⟩
    · rw [if_neg h2]
      by_cases h3 : msg.header.type = C2S_BROADCAST
      · rw [if_pos h3, pbm_fst]
        exact ⟨rfl, fun p hp => ⟨p, hp, rfl⟩⟩
      · rw [if_neg h3]
        by_cases h4 : msg.header.type = C2S_PRIVATE
        · rw [if_pos h4, ppm_fst]
          exact ⟨rfl, fun p hp => ⟨p, hp, rfl⟩⟩
        · rw [if_neg h4]
          by_cases h5 : msg.header.type = C2S_LEAVE
          · rw [if_pos h5]
            exact ⟨(hdisc sess.fd).1, fun p hp => (hdisc sess.fd).2 p hp⟩
          · rw [if_neg h5]
            exact ⟨rfl, fun p hp => ⟨p, hp, rfl⟩⟩

lemma step_manager_shape (s : ServerState) (e : Event)
    (hne : ∀ fd2, e ≠ Event.accept fd2) :
    (step s e).1.manager.next_client_id = s.manager.next_client_id ∧
    ∀ p ∈ (step s e).1.manager.sessions,
      ∃ q ∈ s.manager.sessions, p.2.id = q.2.id := by
  cases e with
  | accept fd => exact absurd rfl (hne fd)
  | hangup fd =>
    have h := disconnection_manager s fd
    exact ⟨h.1, fun p hp => ⟨p, h.2 p hp, rfl⟩⟩
  | recv fd msg =>
    cases hl : get_client_by_fd s.manager fd with
    | none =>
      have hstep : step s (Event.recv fd msg) = (s, []) := by
        simp only [step]
        rw [hl]
      rw [hstep]
      exact ⟨rfl, fun p hp => ⟨p, hp, rfl⟩⟩
    | some sess =>
      have hstep : step s (Event.recv fd msg) = process_message s sess msg := by
        simp only [step]
        rw [hl]
      rw [hstep]
      exact process_message_manager s fd sess hl msg

lemma addClients_next (n : Nat) : ∀ m : ClientManager,
    m.next_client_id < 4294967296 →
    (addClients n m).next_client_id = (m.next_client_id + n) % 4294967296 := by
  induction n with
  | zero =>
    intro m h
    simp [addClients, Nat.mod_eq_of_lt h]
  | succ k ih =>
    intro m h
    show (addClients k (add_client m 0).1).next_client_id = _
    rw [ih (add_client m 0).1 (by simp [add_client]; omega)]
    simp only [add_client]
    omega

lemma add_client_id (m : ClientManager) (fd : Nat) :
    (add_client m fd).2.id = m.next_client_id := rfl

lemma get_client_by_fd_add (m : ClientManager) (fd : Nat) :
    get_client_by_fd (add_client m fd).1 fd =
      some ⟨m.next_client_id, fd, [], false⟩ := by
  unfold get_client_by_fd add_client
  exact alookup_aupsert_self _ _ _

/-- C8 counterexample: the id counter is a uint32_t, so the 4294967296th
add_client call assigns id 0 to a live session (visible through the fd
lookup), and the call after that assigns id 1 again, the same id handed
out by the very first add_client call. -/
theorem id_reuse_counterexample :
    (add_client (addClients 4294967295 initServerState.manager) 0).2.id = 0 ∧
    (get_client_by_fd (add_client (addClients 4294967295 initServerState.manager) 0).1 0).map
      (fun c => c.id) = some 0 ∧
    (add_client (addClients 4294967296 initServerState.manager) 0).2.id =
      (add_client initServerState.manager 0).2.id := by
  have h1 := addClients_next 4294967295 initServerState.manager (by norm_num [initServerState])
  have h2 := addClients_next 4294967296 initServerState.manager (by norm_num [initServerState])
  have hza : (addClients 4294967295 initServerState.manager).next_client_id = 0 := by
    rw [h1]
    norm_num [initServerState]
  refine ⟨?_, ?_, ?_⟩
  · rw [add_client_id, hza]
  · rw [get_client_by_fd_add, hza]
    rfl
  · rw [add_client_id, add_client_id, h2]
    norm_num [initServerState]

lemma run_id_invariant (es : List Event) : ∀ (s : ServerState) (k : Nat),
    s.manager.next_client_id = (1 + k) % 4294967296 →
    k + countAccepts es < 4294967296 →
    (∀ p ∈ s.manager.sessions, 1 ≤ p.2.id ∧ p.2.id ≤ k) →
    (∀ p ∈ (run s es).1.manager.sessions,
      1 ≤ p.2.id ∧ p.2.id ≤ k + countAccepts es) ∧
    assignedIds s es = List.range' (1 + k) (countAccepts es) := by
  induction es with
  | nil =>
    intro s k hnext hbound hids
    refine ⟨fun p hp => ?_, ?_⟩
    · have := hids p hp
      simp only [countAccepts, List.countP_nil]
      omega
    · simp [assignedIds, countAccepts]
  | cons e es ih =>
    intro s k hnext hbound hids
    have hrun : (run s (e :: es)).1 = (run (step s e).1 es).1 := by
      simp [run]
    cases e with
    | accept fd =>
      have hcount : countAccepts (Event.accept fd :: es) = countAccepts es + 1 := by
        simp [countAccepts]
      rw [hcount] at hbound
      have h1k : 1 + k < 4294967296 := by omega
      have hsnext : s.manager.next_client_id = 1 + k := by
        rw [hnext]
        exact Nat.mod_eq_of_lt h1k
      have hstep1 : (step s (Event.accept fd)).1.manager.next_client_id =
          (s.manager.next_client_id + 1) % 4294967296 := rfl
      have hstep2 : (step s (Event.accept fd)).1.manager.sessions =
          aupsert s.manager.sessions fd ⟨s.manager.next_client_id, fd, [], false⟩ := rfl
      have hids2 : ∀ p ∈ (step s (Event.accept fd)).1.manager.sessions,
          1 ≤ p.2.id ∧ p.2.id ≤ k + 1 := by
        rw [hstep2]
        intro p hp
        rcases mem_aupsert _ _ _ _ hp with h2 | h2
        · rw [h2]
          simp only [hsnext]
          omega
        · have := hids p h2
          omega
      have ihh := ih (step s (Event.accept fd)).1 (k + 1)
        (by rw [hstep1, hsnext]; omega) (by omega) hids2
      constructor
      · intro p hp
        rw [hrun] at hp
        have := ihh.1 p hp
        rw [hcount]
        omega
      · show (match Event.accept fd with
            | Event.accept _ => [s.manager.next_client_id]
            | _ => []) ++ assignedIds (step s (Event.accept fd)).1 es = _
        simp only
        rw [ihh.2, hsnext, hcount, List.range'_succ]
        simp [Nat.add_assoc]
    | recv fd msg =>
      have hcount : countAccepts (Event.recv fd msg :: es) = countAccepts es := by
        simp [countAccepts]
      rw [hcount] at hbound
      have hshape := step_manager_shape s (Event.recv fd msg) (by intro fd2 h; cases h)
      have hids2 : ∀ p ∈ (step s (Event.recv fd msg)).1.manager.sessions,
          1 ≤ p.2.id ∧ p.2.id ≤ k := by
        intro p hp
        obtain ⟨q, hq, heq⟩ := hshape.2 p hp
        rw [heq]
        exact hids q hq
      have ihh := ih (step s (Event.recv fd msg)).1 k (by rw [hshape.1, hnext]) hbound hids2
      constructor
      · intro p hp
        rw [hrun] at hp
        have := ihh.1 p hp
        rw [hcount]
        omega
      · show (match Event.recv fd msg with
            | Event.accept _ => [s.manager.next_client_id]
            | _ => []) ++ assignedIds (step s (Event.recv fd msg)).1 es = _
        simp only [List.nil_append]
        rw [ihh.2, hcount]
    | hangup fd =>
      have hcount : countAccepts (Event.hangup fd :: es) = countAccepts es := by
        simp [countAccepts]
      rw [hcount] at hbound
      have hshape := step_manager_shape s (Event.hangup fd) (by intro fd2 h; cases h)
      have hids2 : ∀ p ∈ (step s (Event.hangup fd)).1.manager.sessions,
          1 ≤ p.2.id ∧ p.2.id ≤ k := by
        intro p hp
        obtain ⟨q, hq, heq⟩ := hshape.2 p hp
        rw [heq]
        exact hids q hq
      have ihh := ih (step s (Event.hangup fd)).1 k (by rw [hshape.1, hnext]) hbound hids2
      constructor
      · intro p hp
        rw [hrun] at hp
        have := ihh.1 p hp
        rw [hcount]
        omega
      · show (match Event.hangup fd with
            | Event.accept _ => [s.manager.next_client_id]
            | _ => []) ++ assignedIds (step s (Event.hangup fd)).1 es = _
        simp only [List.nil_append]
        rw [ihh.2, hcount]

/-- C8 amended: for every run of the server loop with fewer than
2 ^ 32 accepted connections, the session ids handed out by add_client
are exactly 1, 2, 3, ... in order (monotonically increasing from 1, no
id ever assigned twice) and every live session id lies between 1 and the
number of accepts, so no live session has id 0.  The bound is required
because the uint32_t counter wraps after 2 ^ 32 assignments. -/
theorem id_monotonic_amended (es : List Event)
    (hcount : countAccepts es < 4294967296) :
    assignedIds initServerState es = List.range' 1 (countAccepts es) ∧
    ∀ p ∈ (run initServerState es).1.manager.sessions,
      1 ≤ p.2.id ∧ p.2.id ≤ countAccepts es := by
  have h := run_id_invariant es initServerState 0 (by norm_num [initServerState])
    (by omega) (by intro p hp; simp [initServerState] at hp)
  constructor
  · have := h.2
    simpa using this
  · intro p hp
    have := h.1 p hp
    omega

/-- Witness for id_monotonic_amended on a run with two accepts. -/
theorem id_monotonic_amended_witness :
    assignedIds initServerState [Event.accept 5, Event.accept 7] =
      List.range' 1 (countAccepts [Event.accept 5, Event.accept 7]) ∧
    ∀ p ∈ (run initServerState [Event.accept 5, Event.accept 7]).1.manager.sessions,
      1 ≤ p.2.id ∧ p.2.id ≤ countAccepts [Event.accept 5, Event.accept 7] :=
  id_monotonic_amended [Event.accept 5, Event.accept 7] (by decide)

lemma mem_keys_aupsert {α : Type} (l : List (Nat × α)) (k : Nat) (v : α) (x : Nat) :
    x ∈ (aupsert l k v).map Prod.fst → x ∈ l.map Prod.fst ∨ x = k := by
  intro hx
  rcases List.mem_map.mp hx with ⟨p, hp, hfst⟩
  rcases mem_aupsert _ _ _ _ hp with h | h
  · right
    rw [← hfst, h]
  · left
    rw [← hfst]
    exact List.mem_map_of_mem Prod.fst h

lemma nodup_keys_aupsert {α : Type} (l : List (Nat × α)) (k : Nat) (v : α)
    (h : (l.map Prod.fst).Nodup) : ((aupsert l k v).map Prod.fst).Nodup := by
  induction l with
  | nil => simp [aupsert]
  | cons p rest ih =>
    obtain ⟨k1, v1⟩ := p
    simp only [List.map_cons, List.nodup_cons] at h
    by_cases h1 : k1 = k
    · subst h1
      simp [aupsert]
      refine ⟨fun x hx => h.1 ?_, h.2⟩
      exact List.mem_map_of_mem Prod.fst hx
    · simp only [aupsert, if_neg h1, List.map_cons, List.nodup_cons]
      refine ⟨fun hmem => ?_, ih h.2⟩
      rcases mem_keys_aupsert rest k v k1 hmem with h2 | h2
      · exact h.1 h2
      · exact h1 h2

lemma aerase_sublist {α : Type} (l : List (Nat × α)) (k : Nat) :
    (aerase l k).Sublist l := by
  induction l with
  | nil => simp [aerase]
  | cons p rest ih =>
    obtain ⟨k1, v1⟩ := p
    by_cases h1 : k1 = k
    · subst h1
      simp only [aerase, if_pos rfl]
      exact List.sublist_cons_self _ _
    · simp only [aerase, if_neg h1]
      exact ih.cons₂ _

lemma nodup_keys_aerase {α : Type} (l : List (Nat × α)) (k : Nat)
    (h : (l.map Prod.fst).Nodup) : ((aerase l k).map Prod.fst).Nodup :=
  ((aerase_sublist l k).map Prod.fst).nodup h

/-- Registry well formedness used along runs: the fd keys are unique and
every stored session records the fd it is keyed under, exactly as the
C++ maps guarantee by construction. -/
def RegistryOk (m : ClientManager) : Prop :=
  (m.sessions.map Prod.fst).Nodup ∧ ∀ p ∈ m.sessions, p.2.fd = p.1

/-- Username reservation held by the session at fd: the session stores u
and is authenticated, u is in the reserved set, and no other session
stores u. -/
def ReservedBy (m : ClientManager) (u : List Nat) (fd : Nat) : Prop :=
  (∃ sess, alookup m.sessions fd = some sess ∧ sess.username = u ∧
    sess.authenticated = true ∧ sess.fd = fd) ∧
  u ∈ m.usernames ∧
  ∀ p ∈ m.sessions, p.2.username = u → p.1 = fd

/-- Invariant carried between the two Join requests: fd1 holds the
reservation for u, the session of the second requester still sits
untouched at fd2, and the registry is well formed. -/
def JoinScenarioInv (s : ServerState) (u : List Nat) (fd1 : Nat)
    (sess2 : ClientSession) (fd2 : Nat) : Prop :=
  ReservedBy s.manager u fd1 ∧
  alookup s.manager.sessions fd2 = some sess2 ∧
  RegistryOk s.manager

/-- Events that neither remove nor re-join the two connections under
scrutiny: no accept or hangup on fd1 or fd2, no Leave from either, and
no further Join from fd2. -/
def benign (fd1 fd2 : Nat) (e : Event) : Prop :=
  match e with
  | Event.accept fd => fd ≠ fd1 ∧ fd ≠ fd2
  | Event.hangup fd => fd ≠ fd1 ∧ fd ≠ fd2
  | Event.recv fd msg =>
      (fd = fd1 → msg.header.type ≠ C2S_LEAVE) ∧
      (fd = fd2 → msg.header.type ≠ C2S_LEAVE ∧ msg.header.type ≠ C2S_JOIN)

lemma mem_add_username (m : ClientManager) (w u : List Nat) (h : u ∈ m.usernames) :
    u ∈ (add_username m w).usernames := by
  unfold add_username
  by_cases hw : w ∈ m.usernames
  · simpa [hw] using h
  · simp [hw, List.mem_append]
    exact Or.inl h

lemma taken_of_mem (m : ClientManager) (u : List Nat) (h : u ∈ m.usernames) :
    is_username_taken m u = true := by
  simp [is_username_taken, h]

lemma reserved_remove (m : ClientManager) (u : List Nat) (fd1 fd2 fd3 : Nat)
    (sess2 : ClientSession) (h3 : fd3 ≠ fd1) (h4 : fd3 ≠ fd2)
    (hres : ReservedBy m u fd1) (h2 : alookup m.sessions fd2 = some sess2)
    (hok : RegistryOk m) :
    ReservedBy (remove_client m fd3) u fd1 ∧
    alookup (remove_client m fd3).sessions fd2 = some sess2 ∧
    RegistryOk (remove_client m fd3) := by
  cases hl : alookup m.sessions fd3 with
  | none =>
    simp only [remove_client, hl]
    exact ⟨hres, h2, hok⟩
  | some sessx =>
    have hxmem := alookup_mem hl
    have hxname : sessx.username ≠ u := by
      intro hcontra
      exact h3 (hres.2.2 (fd3, sessx) hxmem hcontra)
    simp only [remove_client, hl]
    refine ⟨⟨?_, ?_, ?_⟩, ?_, ?_, ?_⟩
    · obtain ⟨sess, hs, hu1, hu2, hu3⟩ := hres.1
      refine ⟨sess, ?_, hu1, hu2, hu3⟩
      rw [alookup_aerase_ne _ _ _ h3]
      exact hs
    · refine List.mem_filter.mpr ⟨hres.2.1, ?_⟩
      have : u ≠ sessx.username := fun hc => hxname hc.symm
      simp [this]
    · intro p hp hpname
      exact hres.2.2 p (mem_aerase _ _ _ hp) hpname
    · rw [alookup_aerase_ne _ _ _ h4]
      exact h2
    · exact nodup_keys_aerase _ _ hok.1
    · intro p hp
      exact hok.2 p (mem_aerase _ _ _ hp)

lemma inv_disconnect (s : ServerState) (u : List Nat) (fd1 fd2 fd3 : Nat)
    (sess2 : ClientSession) (h3 : fd3 ≠ fd1) (h4 : fd3 ≠ fd2)
    (hinv : JoinScenarioInv s u fd1 sess2 fd2) :
    JoinScenarioInv (handle_client_disconnection s fd3).1 u fd1 sess2 fd2 := by
  obtain ⟨hres, h2, hok⟩ := hinv
  unfold handle_client_disconnection
  cases hl : get_client_by_fd s.manager fd3 with
  | none => exact ⟨hres, h2, hok⟩
  | some sessx =>
    exact reserved_remove s.manager u fd1 fd2 fd3 sess2 h3 h4 hres h2 hok

lemma join_inv_step (s : ServerState) (u : List Nat) (fd1 fd2 : Nat)
    (sess2 : ClientSession) (e : Event)
    (hu : u ≠ []) (hinv : JoinScenarioInv s u fd1 sess2 fd2)
    (hben : benign fd1 fd2 e) :
    JoinScenarioInv (step s e).1 u fd1 sess2 fd2 := by
  obtain ⟨hres, h2, hok⟩ := hinv
  cases e with
  | accept fd =>
    obtain ⟨hb1, hb2⟩ := hben
    have hsess' : (step s (Event.accept fd)).1.manager.sessions =
        aupsert s.manager.sessions fd ⟨s.manager.next_client_id, fd, [], false⟩ := rfl
    have husers : (step s (Event.accept fd)).1.manager.usernames =
        s.manager.usernames := rfl
    refine ⟨⟨?_, ?_, ?_⟩, ?_, ?_, ?_⟩
    · obtain ⟨sess, hs, hu1, hu2, hu3⟩ := hres.1
      refine ⟨sess, ?_, hu1, hu2, hu3⟩
      rw [hsess', alookup_aupsert_ne _ _ _ _ hb1]
      exact hs
    · rw [husers]
      exact hres.2.1
    · intro p hp hname
      rw [hsess'] at hp
      rcases mem_aupsert _ _ _ _ hp with hp2 | hp2
      · exfalso
        rw [hp2] at hname
        exact hu hname.symm
      · exact hres.2.2 p hp2 hname
    · rw [hsess', alookup_aupsert_ne _ _ _ _ hb2]
      exact h2
    · rw [hsess']
      exact nodup_keys_aupsert _ _ _ hok.1
    · rw [hsess']
      intro p hp
      rcases mem_aupsert _ _ _ _ hp with hp2 | hp2
      · rw [hp2]
      · exact hok.2 p hp2
  | hangup fd =>
    obtain ⟨hb1, hb2⟩ := hben
    exact inv_disconnect s u fd1 fd2 fd sess2 hb1 hb2 ⟨hres, h2, hok⟩
  | recv fd msg =>
    cases hl : get_client_by_fd s.manager fd with
    | none =>
      have hstep : step s (Event.recv fd msg) = (s, []) := by
        simp only [step]
        rw [hl]
      rw [hstep]
      exact ⟨hres, h2, hok⟩
    | some sess =>
      have hstep : step s (Event.recv fd msg) = process_message s sess msg := by
        simp only [step]
        rw [hl]
      rw [hstep]
      have hl2 : alookup s.manager.sessions fd = some sess := hl
      have hsfd : sess.fd = fd := hok.2 (fd, sess) (alookup_mem hl2)
      unfold process_message
      by_cases ht1 : msg.header.type = C2S_JOIN
      · rw [if_pos ht1]
        by_cases hfd1 : fd = fd1
        · subst hfd1
          obtain ⟨sessr, hsr, -, hsauth, -⟩ := hres.1
          rw [hl2] at hsr
          have heq : sess = sessr := Option.some.inj hsr
          unfold process_join_message
          rw [if_pos (by rw [heq]; exact hsauth)]
          exact ⟨hres, h2, hok⟩
        · by_cases hfd2 : fd = fd2
          · exfalso
            subst hfd2
            exact (hben.2 rfl).2 ht1
          · unfold process_join_message
            by_cases hauth : sess.authenticated = true
            · rw [if_pos hauth]
              exact ⟨hres, h2, hok⟩
            · rw [if_neg hauth]
              dsimp only
              by_cases htaken : is_username_taken s.manager msg.payload = true
              · rw [if_pos htaken]
                exact inv_disconnect s u fd1 fd2 sess.fd sess2
                  (by rw [hsfd]; exact hfd1) (by rw [hsfd]; exact hfd2)
                  ⟨hres, h2, hok⟩
              · rw [if_neg htaken]
                have hpayload : msg.payload ≠ u := by
                  intro hc
                  rw [hc] at htaken
                  exact htaken (taken_of_mem _ _ hres.2.1)
                rw [broadcast_message_eq]
                refine ⟨⟨?_, ?_, ?_⟩, ?_, ?_, ?_⟩
                · obtain ⟨sessr, hsr, hu1, hu2, hu3⟩ := hres.1
                  refine ⟨sessr, ?_, hu1, hu2, hu3⟩
                  show alookup (aupsert s.manager.sessions sess.fd
                    ⟨sess.id, sess.fd, msg.payload, true⟩) fd1 = some sessr
                  rw [alookup_aupsert_ne _ _ _ _ (by rw [hsfd]; exact hfd1)]
                  exact hsr
                · exact mem_add_username _ _ _ hres.2.1
                · intro p hp hname
                  rcases mem_aupsert _ _ _ _ hp with hp2 | hp2
                  · exfalso
                    rw [hp2] at hname
                    exact hpayload hname
                  · exact hres.2.2 p hp2 hname
                · show alookup (aupsert s.manager.sessions sess.fd
                    ⟨sess.id, sess.fd, msg.payload, true⟩) fd2 = some sess2
                  rw [alookup_aupsert_ne _ _ _ _ (by rw [hsfd]; exact hfd2)]
                  exact h2
                · exact nodup_keys_aupsert _ _ _ hok.1
                · intro p hp
                  rcases mem_aupsert _ _ _ _ hp with hp2 | hp2
                  · rw [hp2]
                  · exact hok.2 p hp2
      · rw [if_neg ht1]
        by_cases ht2 : msg.header.type = C2S_USER_JOINED_LIST
        · rw [if_pos ht2, pujl_fst]
          exact ⟨hres, h2, hok⟩
        · rw [if_neg ht2]
          by_cases ht3 : msg.header.type = C2S_BROADCAST
          · rw [if_pos ht3, pbm_fst]
            exact ⟨hres, h2, hok⟩
          · rw [if_neg ht3]
            by_cases ht4 : msg.header.type = C2S_PRIVATE
            · rw [if_pos ht4, ppm_fst]
              exact ⟨hres, h2, hok⟩
            · rw [if_neg ht4]
              by_cases ht5 : msg.header.type = C2S_LEAVE
              · rw [if_pos ht5]
                have hne1 : fd ≠ fd1 := fun hc => (hben.1 hc) ht5
                have hne2 : fd ≠ fd2 := fun hc => (hben.2 hc).1 ht5
                exact inv_disconnect s u fd1 fd2 sess.fd sess2
                  (by rw [hsfd]; exact hne1) (by rw [hsfd]; exact hne2)
                  ⟨hres, h2, hok⟩
              · rw [if_neg ht5]
                exact ⟨hres, h2, hok⟩

lemma run_join_inv (u : List Nat) (fd1 fd2 : Nat) (sess2 : ClientSession)
    (hu : u ≠ []) (es : List Event) : ∀ (s : ServerState),
    (∀ e ∈ es, benign fd1 fd2 e) →
    JoinScenarioInv s u fd1 sess2 fd2 →
    JoinScenarioInv (run s es).1 u fd1 sess2 fd2 := by
  induction es with
  | nil =>
    intro s _ hinv
    exact hinv
  | cons e es ih =>
    intro s hben hinv
    have hrun : (run s (e :: es)).1 = (run (step s e).1 es).1 := by
      simp [run]
    rw [hrun]
    exact ih (step s e).1 (fun e2 he2 => hben e2 (List.mem_cons_of_mem _ he2))
      (join_inv_step s u fd1 fd2 sess2 e hu hinv (hben e (List.mem_cons_self _ _)))

lemma reserved_after_remove (m : ClientManager) (u : List Nat) (fd1 fd3 : Nat)
    (h3 : fd3 ≠ fd1) (hres : ReservedBy m u fd1) :
    ReservedBy (remove_client m fd3) u fd1 := by
  cases hl : alookup m.sessions fd3 with
  | none =>
    simp only [remove_client, hl]
    exact hres
  | some sessx =>
    have hxmem := alookup_mem hl
    have hxname : sessx.username ≠ u := by
      intro hcontra
      exact h3 (hres.2.2 (fd3, sessx) hxmem hcontra)
    simp only [remove_client, hl]
    refine ⟨?_, ?_, ?_⟩
    · obtain ⟨sess, hs, hu1, hu2, hu3⟩ := hres.1
      refine ⟨sess, ?_, hu1, hu2, hu3⟩
      rw [alookup_aerase_ne _ _ _ h3]
      exact hs
    · refine List.mem_filter.mpr ⟨hres.2.1, ?_⟩
      have : u ≠ sessx.username := fun hc => hxname hc.symm
      simp [this]
    · intro p hp hpname
      exact hres.2.2 p (mem_aerase _ _ _ hp) hpname

lemma join_establishes (s : ServerState) (sess1 sess2 : ClientSession)
    (msg : Message) (u : List Nat) (fd1 fd2 : Nat)
    (hne : fd1 ≠ fd2)
    (h1 : alookup s.manager.sessions fd1 = some sess1)
    (h2 : alookup s.manager.sessions fd2 = some sess2)
    (h1a : sess1.authenticated = false)
    (htaken : is_username_taken s.manager u = false)
    (hnoholder : ∀ p ∈ s.manager.sessions, p.2.username ≠ u)
    (hok : RegistryOk s.manager)
    (hpay : msg.payload = u) :
    JoinScenarioInv (process_join_message s sess1 msg).1 u fd1 sess2 fd2 ∧
    ∃ rest, (process_join_message s sess1 msg).2 =
      (fd1, serialize_message (mkMessage S2C_JOIN_SUCCESS SERVER_ID sess1.id
        (welcome_text ++ u ++ [33]))) :: rest ∧
      ∀ o ∈ rest, o.2 = serialize_message
        (mkMessage S2C_USER_JOINED sess1.id BROADCAST_ID u) := by
  have hfd : sess1.fd = fd1 := hok.2 (fd1, sess1) (alookup_mem h1)
  subst hfd
  have humem : u ∉ s.manager.usernames := by
    simpa [is_username_taken] using htaken
  unfold process_join_message
  rw [if_neg (by rw [h1a]; exact Bool.false_ne_true)]
  dsimp only
  rw [hpay, if_neg (by rw [htaken]; exact Bool.false_ne_true)]
  rw [broadcast_message_eq]
  constructor
  · refine ⟨⟨?_, ?_, ?_⟩, ?_, ?_, ?_⟩
    · exact ⟨⟨sess1.id, sess1.fd, u, true⟩, alookup_aupsert_self _ _ _, rfl, rfl, rfl⟩
    · show u ∈ (add_username _ u).usernames
      unfold add_username
      simp [humem]
    · intro p hp hname
      rcases mem_aupsert _ _ _ _ hp with hp2 | hp2
      · rw [hp2]
      · exact absurd hname (hnoholder p hp2)
    · show alookup (aupsert s.manager.sessions sess1.fd
        ⟨sess1.id, sess1.fd, u, true⟩) fd2 = _
      rw [alookup_aupsert_ne _ _ _ _ hne]
      exact h2
    · exact nodup_keys_aupsert _ _ _ hok.1
    · intro p hp
      rcases mem_aupsert _ _ _ _ hp with hp2 | hp2
      · rw [hp2]
      · exact hok.2 p hp2
  · refine ⟨_, rfl, ?_⟩
    intro o ho
    rcases List.mem_map.mp ho with ⟨p, -, hpo⟩
    rw [← hpo]

lemma join_rejects (s : ServerState) (sess : ClientSession) (msg : Message)
    (u : List Nat)
    (hl : alookup s.manager.sessions sess.fd = some sess)
    (hnauth : sess.authenticated = false)
    (hmem : u ∈ s.manager.usernames) (hpay : msg.payload = u) :
    process_join_message s sess msg =
      (⟨remove_client s.manager sess.fd, epoll_remove_fd s.epoll_fds sess.fd⟩,
       [(sess.fd, serialize_message
          (mkMessage S2C_JOIN_FAILURE SERVER_ID sess.id username_exists_text))]) := by
  unfold process_join_message
  rw [if_neg (by rw [hnauth]; exact Bool.false_ne_true)]
  dsimp only
  rw [hpay, if_pos (taken_of_mem _ _ hmem)]
  have hafter : handle_client_disconnection s sess.fd =
      (⟨remove_client s.manager sess.fd, epoll_remove_fd s.epoll_fds sess.fd⟩, []) := by
    unfold handle_client_disconnection
    rw [show get_client_by_fd s.manager sess.fd = some sess from hl]
    dsimp only
    rw [if_neg (by rw [hnauth]; exact Bool.false_ne_true)]
  rw [hafter]

/-- C3 counterexample: three connections; fd 1 joins with the empty
username and is accepted; the unauthenticated fd 2 hangs up, and its
removal erases its stored (empty) username from the reserved set; fd 3
then joins with the same empty username and is accepted too.  The run
produces two S2C_JOIN_SUCCESS sends and no S2C_JOIN_FAILURE, the first
joiner was never removed, and just before the second Join the
reservation is already gone while the first joiner is still live and
authenticated with that username. -/
theorem empty_username_double_join_counterexample :
    (run initServerState
      [Event.accept 1, Event.accept 2, Event.accept 3,
       Event.recv 1 ⟨⟨1, 0, 0, 0⟩, []⟩, Event.hangup 2,
       Event.recv 3 ⟨⟨1, 0, 0, 0⟩, []⟩]).2.countP
        (fun o => o.2.headD 0 == S2C_JOIN_SUCCESS) = 2 ∧
    (run initServerState
      [Event.accept 1, Event.accept 2, Event.accept 3,
       Event.recv 1 ⟨⟨1, 0, 0, 0⟩, []⟩, Event.hangup 2,
       Event.recv 3 ⟨⟨1, 0, 0, 0⟩, []⟩]).2.countP
        (fun o => o.2.headD 0 == S2C_JOIN_FAILURE) = 0 ∧
    is_username_taken (run initServerState
      [Event.accept 1, Event.accept 2, Event.accept 3,
       Event.recv 1 ⟨⟨1, 0, 0, 0⟩, []⟩, Event.hangup 2]).1.manager [] = false ∧
    (get_client_by_fd (run initServerState
      [Event.accept 1, Event.accept 2, Event.accept 3,
       Event.recv 1 ⟨⟨1, 0, 0, 0⟩, []⟩, Event.hangup 2]).1.manager 1).map
        (fun c => (c.authenticated, c.username)) = some (true, []) :=
  ⟨by decide, by decide, by decide, by decide⟩

/-- C3 amended: for two Join requests carrying the same non-empty
username payload from two different live unauthenticated connections,
with no intervening event that accepts, hangs up, or carries a Leave on
either connection and no further Join on the second, the first requester
receives JoinSuccess (followed only by UserJoined broadcast sends), the
username stays reserved by the first connection across the intervening
events, and the second requester receives exactly one JoinFailure and is
removed from the registry while the first keeps the reservation.  The
non-emptiness is forced: removal of an unauthenticated session erases
its stored empty username from the reservation set, so two Joins with
the empty username can both succeed (see the counterexample). -/
theorem username_uniqueness_amended
    (s0 : ServerState) (sess1 sess2 : ClientSession) (msg1 msg2 : Message)
    (u : List Nat) (fd1 fd2 : Nat) (es : List Event)
    (hu : u ≠ []) (hne : fd1 ≠ fd2)
    (h1 : alookup s0.manager.sessions fd1 = some sess1)
    (h2 : alookup s0.manager.sessions fd2 = some sess2)
    (h1a : sess1.authenticated = false)
    (h2a : sess2.authenticated = false)
    (htaken : is_username_taken s0.manager u = false)
    (hnoholder : ∀ p ∈ s0.manager.sessions, p.2.username ≠ u)
    (hok : RegistryOk s0.manager)
    (ht1 : msg1.header.type = C2S_JOIN) (hp1 : msg1.payload = u)
    (ht2 : msg2.header.type = C2S_JOIN) (hp2 : msg2.payload = u)
    (hben : ∀ e ∈ es, benign fd1 fd2 e) :
    (∃ rest, (step s0 (Event.recv fd1 msg1)).2 =
      (fd1, serialize_message (mkMessage S2C_JOIN_SUCCESS SERVER_ID sess1.id
        (welcome_text ++ u ++ [33]))) :: rest ∧
      ∀ o ∈ rest, o.2 = serialize_message
        (mkMessage S2C_USER_JOINED sess1.id BROADCAST_ID u)) ∧
    ReservedBy (run (step s0 (Event.recv fd1 msg1)).1 es).1.manager u fd1 ∧
    (step (run (step s0 (Event.recv fd1 msg1)).1 es).1 (Event.recv fd2 msg2)).2 =
      [(fd2, serialize_message (mkMessage S2C_JOIN_FAILURE SERVER_ID sess2.id
        username_exists_text))] ∧
    get_client_by_fd
      (step (run (step s0 (Event.recv fd1 msg1)).1 es).1
        (Event.recv fd2 msg2)).1.manager fd2 = none ∧
    ReservedBy
      (step (run (step s0 (Event.recv fd1 msg1)).1 es).1
        (Event.recv fd2 msg2)).1.manager u fd1 := by
  have hstep1 : step s0 (Event.recv fd1 msg1) = process_join_message s0 sess1 msg1 := by
    simp only [step]
    rw [show get_client_by_fd s0.manager fd1 = some sess1 from h1]
    dsimp only
    unfold process_message
    rw [if_pos ht1]
  set s1 := (step s0 (Event.recv fd1 msg1)).1 with hs1
  set smid := (run s1 es).1 with hsmid
  have hest := join_establishes s0 sess1 sess2 msg1 u fd1 fd2 hne h1 h2 h1a htaken
    hnoholder hok hp1
  have hinv1 : JoinScenarioInv s1 u fd1 sess2 fd2 := by
    rw [hs1, hstep1]
    exact hest.1
  have hinv2 : JoinScenarioInv smid u fd1 sess2 fd2 :=
    run_join_inv u fd1 fd2 sess2 hu es s1 hben hinv1
  obtain ⟨hres2, h2l, hok2⟩ := hinv2
  have hfd2 : sess2.fd = fd2 := hok2.2 (fd2, sess2) (alookup_mem h2l)
  have hstep2 : step smid (Event.recv fd2 msg2) =
      process_join_message smid sess2 msg2 := by
    simp only [step]
    rw [show get_client_by_fd smid.manager fd2 = some sess2 from h2l]
    dsimp only
    unfold process_message
    rw [if_pos ht2]
  have hrej := join_rejects smid sess2 msg2 u (by rw [hfd2]; exact h2l) h2a
    hres2.2.1 hp2
  refine ⟨?_, hres2, ?_, ?_, ?_⟩
  · rw [hstep1]
    exact hest.2
  · rw [hstep2, hrej, hfd2]
  · rw [hstep2, hrej]
    show alookup (remove_client smid.manager sess2.fd).sessions fd2 = none
    rw [show (remove_client smid.manager sess2.fd).sessions =
      aerase smid.manager.sessions sess2.fd from by
        unfold remove_client
        rw [show alookup smid.manager.sessions sess2.fd = some sess2 from by
          rw [hfd2]; exact h2l]]
    rw [hfd2]
    exact alookup_aerase_self _ _ hok2.1
  · rw [hstep2, hrej]
    exact reserved_after_remove _ u fd1 sess2.fd
      (by rw [hfd2]; exact fun hc => hne hc.symm) hres2

/-- Witness for username_uniqueness_amended: two fresh connections both
join with username a (byte 97), with no intervening events. -/
theorem username_uniqueness_amended_witness :
    (∃ rest, (step (run initServerState [Event.accept 1, Event.accept 2]).1
        (Event.recv 1 ⟨⟨1, 0, 0, 1⟩, [97]⟩)).2 =
      ((1 : Nat), serialize_message (mkMessage S2C_JOIN_SUCCESS SERVER_ID
        (⟨1, 1, [], false⟩ : ClientSession).id
        (welcome_text ++ [97] ++ [33]))) :: rest ∧
      ∀ o ∈ rest, o.2 = serialize_message
        (mkMessage S2C_USER_JOINED (⟨1, 1, [], false⟩ : ClientSession).id
          BROADCAST_ID [97])) ∧
    ReservedBy (run (step (run initServerState [Event.accept 1, Event.accept 2]).1
        (Event.recv 1 ⟨⟨1, 0, 0, 1⟩, [97]⟩)).1 []).1.manager [97] 1 ∧
    (step (run (step (run initServerState [Event.accept 1, Event.accept 2]).1
        (Event.recv 1 ⟨⟨1, 0, 0, 1⟩, [97]⟩)).1 []).1
      (Event.recv 2 ⟨⟨1, 0, 0, 1⟩, [97]⟩)).2 =
      [((2 : Nat), serialize_message (mkMessage S2C_JOIN_FAILURE SERVER_ID
        (⟨2, 2, [], false⟩ : ClientSession).id username_exists_text))] ∧
    get_client_by_fd
      (step (run (step (run initServerState [Event.accept 1, Event.accept 2]).1
          (Event.recv 1 ⟨⟨1, 0, 0, 1⟩, [97]⟩)).1 []).1
        (Event.recv 2 ⟨⟨1, 0, 0, 1⟩, [97]⟩)).1.manager 2 = none ∧
    ReservedBy
      (step (run (step (run initServerState [Event.accept 1, Event.accept 2]).1
          (Event.recv 1 ⟨⟨1, 0, 0, 1⟩, [97]⟩)).1 []).1
        (Event.recv 2 ⟨⟨1, 0, 0, 1⟩, [97]⟩)).1.manager [97] 1 :=
  username_uniqueness_amended (run initServerState [Event.accept 1, Event.accept 2]).1
    ⟨1, 1, [], false⟩ ⟨2, 2, [], false⟩ ⟨⟨1, 0, 0, 1⟩, [97]⟩ ⟨⟨1, 0, 0, 1⟩, [97]⟩
    [97] 1 2 [] (by decide) (by decide) (by decide) (by decide) (by decide) (by decide)
    (by decide) (by decide) ⟨by decide, by decide⟩ (by decide) (by decide) (by decide)
    (by decide) (fun e he => absurd he (List.not_mem_nil e))
